import Mathlib

/-!
# cat-herder and kitty

A shallow embedding of the two programs of the repository:

* `kitty.c`, the Worker: it validates its open descriptors and its
  environment according to a run level, then copies standard input to
  standard output;
* `cat-herder.c`, the Orchestrator: it forks three Workers, gives each its
  environment, and waits for them.

C strings are Lean strings read character by character: a `Char` stands for
one `char` of the C string, and the terminating NUL is the end of the list.
A Lean string that no C string can be (a NUL inside, a character above 255)
is in the domain of the definitions but stands for no input of the programs;
every concrete input used below is plain ASCII.
Everything a process obtains from the operating system (open descriptors,
files, the bytes on standard input, the outcome of a `write`, the outcome of
`waitpid`) is a field of an explicit structure, and everything it does to the
outside (bytes written, diagnostics, marker files created, children waited
for) is collected in an explicit record. Standard output is the buffered
stream of the C library: a byte `fputc` accepts stays in the buffer until the
library writes the buffer out, at the latest when the process ends, and the
outcome of that last write changes no exit status.
-/

set_option autoImplicit false

/-! ## The C library functions used by both programs -/

namespace Libc

/-- The C function `strcmp` on the characters of two strings. The C standard
fixes only the sign of the result: zero when the strings are equal, otherwise
the sign of the difference at the first place where they differ, a string
that ends there being the smaller. -/
def strcmp_chars : List Char → List Char → Int
  | [], [] => 0
  | [], _ :: _ => -1
  | _ :: _, [] => 1
  | a :: as, b :: bs =>
    if a = b then strcmp_chars as bs
    else if a.toNat < b.toNat then -1 else 1

/-- The C function `strcmp`. -/
def strcmp (a b : String) : Int := strcmp_chars a.data b.data

/-- The test the C library applies to an entry of `environ` when it looks for
the variable `name`: `strncmp (entry, name, len) == 0 && entry[len] == '='`,
that is, the entry starts with `name` followed by `=`. -/
def entry_has_name (name : String) (entry : String) : Bool :=
  (name.data ++ ['=']).isPrefixOf entry.data

/-- The C function `getenv`: the text after `name=` in the first entry of
`environ` that has this name, `none` (the null pointer) when there is none. -/
def getenv (environ : List String) (name : String) : Option String :=
  match environ with
  | [] => none
  | entry :: rest =>
    if entry_has_name name entry then
      some ⟨entry.data.drop (name.data.length + 1)⟩
    else getenv rest name

end Libc

/-! ## The Worker, `kitty.c` -/

namespace Kitty

/-- One byte of a stream, an `unsigned char`. -/
abbrev Byte := Fin 256

/-- The value `EOF` of `stdio.h`. -/
def EOF : Int := -1

/-- What a `write` on descriptor 1, made by the stream `stdout` to empty its
buffer, comes to. -/
inductive WriteOutcome where
  /-- All the bytes of the buffer are taken. -/
  | written
  /-- The first `taken` bytes of the buffer are taken, then a call returns -1
  (a device that fills up; `taken` is 0 for a device already full). -/
  | failed (taken : Nat)
  /-- The process receives a signal that ends it (`SIGPIPE` on a pipe nobody
  reads). -/
  | killed (signal : Nat)
deriving DecidableEq, Repr

/-- What the Worker finds when it starts. -/
structure World where
  /-- Result of `getpid()`. -/
  pid : Nat
  /-- The entries of `envp`, which are those of `environ`. -/
  environ : List String
  /-- Whether `fcntl(i, F_GETFD, 0)` differs from -1, that is, descriptor `i` is open. -/
  fd_open : Nat → Bool
  /-- Whether `stat` succeeds on a file name. -/
  file_exists : String → Bool
  /-- Whether `open(fname, O_RDWR | O_CREAT | O_TRUNC, mode)` succeeds. -/
  can_create : String → Bool
  /-- The bytes `fgetc(stdin)` delivers before it returns `EOF`. -/
  stdin : List Byte
  /-- Whether the stream `stdout` empties its buffer before it stores the byte
  of the call of `fputc` made after the given number of calls (the buffer is
  full). When this happens is the library's choice of buffer. -/
  flush_before : Nat → Bool
  /-- Whether the stream `stdout` empties its buffer right after it has stored
  the byte of that call of `fputc` (an unbuffered stream, a line-buffered one
  at a newline). -/
  flush_after : Nat → Bool
  /-- What a `write` on descriptor 1 comes to when the given number of bytes
  has reached the descriptor before. -/
  write : Nat → WriteOutcome

/-- What the Worker has done to the outside so far. -/
structure Effects where
  /-- Bytes that have reached descriptor 1, oldest first. -/
  out : List Byte
  /-- Bytes `fputc` has stored in the buffer of `stdout` and that have not
  been written yet, oldest first. -/
  pending : List Byte
  /-- Diagnostics written to standard error, oldest first. -/
  err : List String
  /-- Marker files created, oldest first. -/
  created : List String
deriving DecidableEq, Repr

/-- How the process ended: by `exit` or a return from `main`, or by a
signal. -/
inductive Ending where
  | exited (status : Nat)
  | killed (signal : Nat)
deriving DecidableEq, Repr

/-- A terminated Worker: how it ended and what it did. -/
structure Result where
  ending : Ending
  eff : Effects
deriving DecidableEq, Repr

/-- A computation of the Worker: `ok` when the C function returns, `error`
when the process is over (it called `exit`, or a signal ended it). -/
abbrev Proc := Except Result Effects

/-- What emptying the buffer of `stdout`, or a call of `fputc`, comes to. -/
inductive Put where
  /-- Success: `fputc` returns the byte. -/
  | done (e : Effects)
  /-- The `write` failed: `fputc` returns `EOF`. -/
  | eof (e : Effects)
  /-- The `write` ended the process. -/
  | over (r : Result)

/-- The stream `stdout` empties its buffer: no `write` when the buffer is
empty, else its bytes are written (the library calls `write` again after a
short count); the buffer is empty afterwards whatever the writing came to. -/
def write_pending (w : World) (e : Effects) : Put :=
  match e.pending with
  | [] => Put.done e
  | _ :: _ =>
    match w.write e.out.length with
    | WriteOutcome.written => Put.done { e with out := e.out ++ e.pending, pending := [] }
    | WriteOutcome.failed taken =>
      Put.eof { e with out := e.out ++ e.pending.take taken, pending := [] }
    | WriteOutcome.killed s => Put.over ⟨Ending.killed s, { e with pending := [] }⟩

/-- The end of the process by `exit(status)` or by `return status` from
`main`: the C library empties the buffer of `stdout`; the outcome of that
`write` is not looked at, so the status stays what it was, unless the `write`
ends the process by a signal. -/
def at_exit (w : World) (status : Nat) (e : Effects) : Result :=
  match write_pending w e with
  | Put.done e1 => ⟨Ending.exited status, e1⟩
  | Put.eof e1 => ⟨Ending.exited status, e1⟩
  | Put.over r => r

/-- The C function `exit`. -/
def exit (w : World) (status : Nat) (e : Effects) : Proc :=
  Except.error (at_exit w status e)

/-- Appends one diagnostic to standard error. -/
def eprint (msg : String) (e : Effects) : Effects :=
  { e with err := e.err ++ [msg] }

/-- Nothing done yet. -/
def Effects.none : Effects := ⟨[], [], [], []⟩

/-- The lines `usage` prints. -/
def usage_text : List String :=
  [ "Usage: kitty -n\n\n",
    "where n is one of the following integers:\n",
    "0  Perform no environment or file descriptor checks\n",
    "1  Perform no environment checks\n",
    "2  Ensure that the env variable CATFOOD is present and set to 'yummy'\n",
    "3  Ensure that the env variable KITTYLITTER is _not_ set\n",
    "4  Ensure that the environment contains _only_ the variables PATH, \n",
    "   HOME and CATFOOD\n",
    "5  Force a nonzero error exit, without copying anything\n\n",
    "To prove that it has run, kitty will create the file kitty.n\n",
    "in the current working directory.\n" ]

/-- The C function `usage`: prints the usage message and exits with status 1. -/
def usage (w : World) (e : Effects) : Proc :=
  exit w 1 { e with err := e.err ++ usage_text }

/-- The name `touch` builds, `.kitty.<pid>.<suffix>`. The buffer has 32 bytes;
with a 32-bit process id and the suffixes used the name has at most 25
characters, so `snprintf` never truncates it. -/
def touch_name (pid : Nat) (suffix : String) : String :=
  ".kitty." ++ toString pid ++ "." ++ suffix

/-- The C function `touch`: creates the marker file, or reports and exits
with status 1 when `open` fails. -/
def touch (w : World) (suffix : String) (e : Effects) : Proc :=
  let fname := touch_name w.pid suffix
  if w.can_create fname then
    Except.ok { e with created := e.created ++ [fname] }
  else
    exit w 1 (eprint "open: (error text of errno)\n" e)

/-- The C function `is_file`: whether `.kitty.<suffix>` exists. -/
def is_file (w : World) (suffix : String) : Bool :=
  w.file_exists (".kitty." ++ suffix)

/-- The descriptors the loop of `check_fds` visits: `STDERR_FILENO + 1`
up to 1023. -/
def scanned_fds : List Nat := List.range' (2 + 1) (1024 - (2 + 1))

/-- The diagnostic of `check_fds` for an open descriptor. -/
def fd_message (i : Nat) : String :=
  "kitty error: File descriptor " ++ toString i ++ " is open\n"

/-- The C function `check_fds`. -/
def check_fds (w : World) (runlevel : Int) (e : Effects) : Proc :=
  let found := scanned_fds.filter w.fd_open
  let e1 : Effects := { e with err := e.err ++ found.map fd_message }
  let error : Bool := !found.isEmpty
  (if !error then touch w "fd_ok" e1 else Except.ok e1) >>= fun e2 =>
  if error ∧ runlevel ≠ 0 then exit w 1 e2 else Except.ok e2

/-- The part of `check_env` for `case 4`, before it falls through: the count
of the entries of `envp`. -/
def check_env_count (runlevel : Int) (envp : List String) (e : Effects) : Bool × Effects :=
  if runlevel = 4 ∧ envp.length ≠ 3 then
    (true, eprint ("kitty error: Expected only 3 environment variables, found "
      ++ toString envp.length ++ "\n") e)
  else (false, e)

/-- The part of `check_env` for `case 2` (reached from `case 4` too). -/
def check_env_food (environ : List String) (error : Bool) (e : Effects) : Bool × Effects :=
  match Libc.getenv environ "CATFOOD" with
  | Option.none =>
    (true, eprint "kitty error: Expected to find the environment variable CATFOOD\n" e)
  | some val =>
    if Libc.strcmp val "yummy" ≠ 0 then
      (true, eprint
        "kitty error: Expected to find the environment variable CATFOOD set to yummy\n" e)
    else (error, e)

/-- The part of `check_env` for `case 3`. -/
def check_env_litter (environ : List String) (error : Bool) (e : Effects) : Bool × Effects :=
  match Libc.getenv environ "KITTYLITTER" with
  | some _ =>
    (true, eprint
      "kitty error: Did NOT expect to find the environment variable KITTYLITTER\n" e)
  | Option.none => (error, e)

/-- The C function `check_env`. The `switch` has no default: a run level
outside 0..4 performs no test. -/
def check_env (w : World) (runlevel : Int) (envp : List String) (e : Effects) : Proc :=
  if runlevel = 0 ∨ runlevel = 1 then Except.ok e
  else
    let s1 := check_env_count runlevel envp e
    let s2 :=
      if runlevel = 4 ∨ runlevel = 2 then check_env_food w.environ s1.1 s1.2
      else if runlevel = 3 then check_env_litter w.environ s1.1 s1.2
      else s1
    if s2.1 then exit w 1 s2.2 else touch w "env_ok" s2.2

/-- The expression `argv[1][1] - '0'`. The character at index 1 of a string of
one character is its terminator, 0; the empty string has no index 1 (the read
is past the end of the argument), which is `none`. A `char` above 127, read
as signed or as unsigned, gives a value outside 0..5 either way. -/
def runlevel_of (arg : String) : Option Int :=
  match arg.data with
  | [] => Option.none
  | [_] => some ((0 : Int) - ('0'.toNat : Int))
  | _ :: c :: _ => some ((c.toNat : Int) - ('0'.toNat : Int))

/-- Lines 215 to 228 of `main`: the range test, the forced failure, the
launch marker and the two checks. -/
def checks (w : World) (runlevel : Int) : Proc :=
  if runlevel < 0 ∨ runlevel > 5 then usage w Effects.none
  else if runlevel = 5 ∨ (runlevel = 3 ∧ is_file w "force_exit" = true) then
    exit w 1 (eprint "kitty error: Forcing an error exit\n" Effects.none)
  else
    touch w "launch" Effects.none >>= fun e1 =>
    check_fds w runlevel e1 >>= fun e2 =>
    check_env w runlevel w.environ e2

/-- The function `fputc(c, stdout)` on the buffered stream: the buffer is
emptied first when it is full, `c` converted to `unsigned char` is stored in
it, and the buffer is emptied again when the stream does not keep bytes back.
The call returns `EOF` only when one of these writes fails; a byte stored is
not yet a byte written. -/
def fputc (w : World) (c : Int) (e : Effects) : Put :=
  let n := e.out.length + e.pending.length
  match (if w.flush_before n then write_pending w e else Put.done e) with
  | Put.done e1 =>
    let e2 : Effects := { e1 with pending := e1.pending ++ [Fin.ofNat (c % 256).toNat] }
    if w.flush_after n then write_pending w e2 else Put.done e2
  | Put.eof e1 => Put.eof e1
  | Put.over r => Put.over r

/-- The copy loop of `main`, on the bytes still to come on standard input:
`fgetc` gives a byte as a non-negative `int`, or `EOF` at the end. -/
def copy_loop (w : World) : List Byte → Effects → Proc
  | [], e => Except.ok e
  | b :: rest, e =>
    let c : Int := (b.val : Int)
    if c = EOF then Except.ok e
    else
      match fputc w c e with
      | Put.eof e1 => exit w 1 (eprint "fputc: (error text of errno)\n" e1)
      | Put.over r => Except.error r
      | Put.done e1 => copy_loop w rest e1

/-- The result of a computation that ends `main`: when the computation
returns, `main` returns `status` and the process ends as by `exit(status)`. -/
def finish (w : World) (status : Nat) (p : Proc) : Result :=
  match p with
  | Except.ok e => at_exit w status e
  | Except.error r => r

/-- The C function `main` of `kitty.c`; `argc` is the length of `argv`.
`none` is the read past the end of an empty argument. -/
def main (w : World) (argv : List String) : Option Result :=
  if argv.length ≠ 2 then some (finish w 1 (usage w Effects.none))
  else
    match runlevel_of (argv.getD 1 "") with
    | Option.none => Option.none
    | some runlevel =>
      some (finish w 0
        (checks w runlevel >>= fun e =>
         copy_loop w w.stdin e >>= fun e1 =>
         touch w "eof_ok" e1))

end Kitty

/-! ## The environment functions of the C library

The Orchestrator changes its environment with `putenv`, `setenv`, `unsetenv`
and `clearenv`. They are modelled on the list of the entries of `environ`, as
the GNU C library implements them; running out of memory is not modelled. -/

namespace Libc

/-- The part of `string` before its first `=`, when it has one: the name
`putenv` takes from its argument. -/
def name_of (string : String) : Option String :=
  if '=' ∈ string.data then some ⟨string.data.takeWhile (fun c => c != '=')⟩
  else none

/-- The search and store of the C library: the first entry named `name` is
overwritten with `np`; when there is none, `np` is added at the end. -/
def add_to_environ (environ : List String) (name : String) (np : String) : List String :=
  match environ with
  | [] => [np]
  | entry :: rest =>
    if entry_has_name name entry then np :: rest
    else entry :: add_to_environ rest name np

/-- The C function `unsetenv`: the return value and the new `environ`. An
empty name or one with `=` is refused with -1; otherwise every entry named
`name` is removed. -/
def unsetenv (environ : List String) (name : String) : Int × List String :=
  if name.data = [] ∨ '=' ∈ name.data then (-1, environ)
  else (0, environ.filter (fun entry => !entry_has_name name entry))

/-- The C function `putenv`: the return value and the new `environ`. A string
`name=value` is stored in the place of the first entry named `name` (or
added); a string without `=` removes the variable of that name. -/
def putenv (environ : List String) (string : String) : Int × List String :=
  match name_of string with
  | some name => (0, add_to_environ environ name string)
  | none => (0, (unsetenv environ string).2)

/-- The C function `setenv` with a non-zero `replace`: the return value and
the new `environ`. The value is `none` for a null pointer; the library then
takes the length of a null string, which is undefined (`none`). -/
def setenv (environ : List String) (name : String) (value : Option String) :
    Option (Int × List String) :=
  if name.data = [] ∨ '=' ∈ name.data then some (-1, environ)
  else
    match value with
    | none => none
    | some v => some (0, add_to_environ environ name (name ++ "=" ++ v))

/-- The C function `clearenv`: the return value and the new, empty `environ`. -/
def clearenv (_environ : List String) : Int × List String := (0, [])

end Libc

/-! ## The Orchestrator, `cat-herder.c` -/

namespace CatHerder

/-- How a computation of a child of the Orchestrator stops before it
returns. -/
inductive Stop where
  /-- The code called `exit` with this status. -/
  | exited (status : Nat)
  /-- The code passed a null pointer as the value of `setenv`. -/
  | null_value (name : String)
  /-- The bound on the iterations of the model was reached. -/
  | out_of_fuel
deriving DecidableEq, Repr

/-- The first loop of `set_env`, from index `i`: `putenv(environ[i])` for each
entry until `environ[i]` is null, on the `environ` the calls themselves
change. `fuel` bounds the iterations. -/
def putenv_loop : Nat → Nat → List String → Except Stop (List String)
  | fuel, i, environ =>
    match environ.get? i with
    | none => Except.ok environ
    | some entry =>
      match fuel with
      | 0 => Except.error Stop.out_of_fuel
      | fuel + 1 =>
        let r := Libc.putenv environ entry
        if r.1 ≠ 0 then Except.error (Stop.exited 1)
        else putenv_loop fuel (i + 1) r.2

/-- One call of `setenv` in `set_env`, with the test of its return value. -/
def setenv_or_exit (environ : List String) (name : String) (value : Option String) :
    Except Stop (List String) :=
  match Libc.setenv environ name value with
  | none => Except.error (Stop.null_value name)
  | some r => if r.1 ≠ 0 then Except.error (Stop.exited 1) else Except.ok r.2

/-- The branch `n == 2` of `set_env`. -/
def set_env_2 (environ : List String) : Except Stop (List String) :=
  setenv_or_exit environ "CATFOOD" (some "yummy")

/-- The branch `n == 3` of `set_env`. -/
def set_env_3 (environ : List String) : Except Stop (List String) :=
  let r := Libc.unsetenv environ "KITTYLITTER"
  if r.1 ≠ 0 then Except.error (Stop.exited 1) else Except.ok r.2

/-- The branch `n == 4` of `set_env`. -/
def set_env_4 (environ : List String) : Except Stop (List String) :=
  let path := Libc.getenv environ "PATH"
  let home := Libc.getenv environ "HOME"
  let r := Libc.clearenv environ
  if r.1 ≠ 0 then Except.error (Stop.exited 1)
  else
    setenv_or_exit r.2 "PATH" path >>= fun e1 =>
    setenv_or_exit e1 "HOME" home >>= fun e2 =>
    setenv_or_exit e2 "CATFOOD" (some "yummy")

/-- The C function `set_env`, from the environment the child inherited to the
one it passes on. The loop runs at most once per entry, which is the fuel it
is given. -/
def set_env (n : Int) (environ : List String) : Except Stop (List String) :=
  putenv_loop environ.length 0 environ >>= fun e0 =>
  (if n = 2 then set_env_2 e0 else Except.ok e0) >>= fun e1 =>
  (if n = 3 then set_env_3 e1 else Except.ok e1) >>= fun e2 =>
  (if n = 4 then set_env_4 e2 else Except.ok e2)

/-- What `waitpid(pid, &status, 0)` gives: its return value and the status it
stores. -/
structure WaitOutcome where
  ret : Int
  status : Int
deriving DecidableEq, Repr

/-- What the parent process finds. -/
structure Os where
  /-- Return value of `pipe(pipe1)`. -/
  pipe1 : Int
  /-- Return value of `pipe(pipe2)`. -/
  pipe2 : Int
  /-- Return values of the three calls of `fork`, in the parent. -/
  fork2 : Int
  fork3 : Int
  fork4 : Int
  /-- Outcome of `waitpid` on a process id. -/
  waitpid : Int → WaitOutcome

/-- What the parent has done to the outside so far. -/
structure Effects where
  /-- Diagnostics written to standard error, oldest first. -/
  err : List String
  /-- Process ids `waitpid` was called on, oldest first. -/
  waited : List Int
deriving DecidableEq, Repr

/-- The terminated parent. -/
structure Result where
  status : Nat
  eff : Effects
deriving DecidableEq, Repr

/-- A computation of the parent: `ok` when the C function returns, `error`
when it called `exit`. -/
abbrev Proc := Except Result Effects

/-- The macro `WEXITSTATUS` of `sys/wait.h`, `((status) & 0xff00) >> 8`. -/
def WEXITSTATUS (status : Int) : Int := (status / 256) % 256

/-- The macro `WIFEXITED` of `sys/wait.h`, `((status) & 0x7f) == 0`: the child
ended by `exit` or by returning from `main`. -/
def WIFEXITED (status : Int) : Bool := status % 128 == 0

/-- The C function `fork_child`, in the parent: the value of `fork`, or exit
with status 1 when it is negative. -/
def fork_child (pid : Int) (e : Effects) : Proc :=
  if pid < 0 then Except.error ⟨1, { e with err := e.err ++ ["fork: (error text of errno)\n"] }⟩
  else Except.ok e

/-- The C function `wait_child`. -/
def wait_child (os : Os) (pid_kitty : Int) (e : Effects) : Proc :=
  let e1 : Effects := { e with waited := e.waited ++ [pid_kitty] }
  let o := os.waitpid pid_kitty
  if o.ret < 0 ∨ WEXITSTATUS o.status ≠ 0 then
    Except.error ⟨1, { e1 with err := e1.err ++
      ["Error waiting for child with PID " ++ toString pid_kitty ++ ": (error text of errno)\n"] }⟩
  else Except.ok e1

/-- The C function `main` of `cat-herder.c` as the parent process runs it;
`argc` is the length of `argv`. The branches taken when `fork` returns 0 belong
to the children. -/
def main (os : Os) (argv : List String) : Result :=
  let start : Effects := ⟨[], []⟩
  if argv.length ≠ 3 then
    ⟨1, { start with err :=
      ["Usage: " ++ argv.getD 0 "(null)" ++ " <inputfile> <outputfile>\n"] }⟩
  else if os.pipe1 = -1 ∨ os.pipe2 = -1 then
    ⟨1, { start with err := ["pipe: (error text of errno)\n"] }⟩
  else
    let run : Proc :=
      fork_child os.fork2 start >>= fun e1 =>
      fork_child os.fork3 e1 >>= fun e2 =>
      fork_child os.fork4 e2 >>= fun e3 =>
      wait_child os os.fork2 e3 >>= fun e4 =>
      wait_child os os.fork3 e4 >>= fun e5 =>
      wait_child os os.fork4 e5
    match run with
    | Except.ok e => ⟨0, e⟩
    | Except.error r => r

end CatHerder

/-! ## Definitions used to state and prove the properties -/

namespace Kitty

/-- A computation has put nothing on standard output, neither on the
descriptor nor in the buffer, and if it ended the process, it did so by
`exit` with status 1. -/
def Silent (p : Proc) : Prop :=
  match p with
  | Except.ok e1 => e1.out = [] ∧ e1.pending = []
  | Except.error r => r.ending = Ending.exited 1 ∧ r.eff.out = [] ∧ r.eff.pending = []

/-- The effects a call of `fputc` ends with, whatever it came to. -/
def Put.effects : Put → Effects
  | Put.done e => e
  | Put.eof e => e
  | Put.over r => r.eff

/-- A computation ends, by returning or with the process, with at least one
marker file created. -/
def Marked (p : Proc) : Prop :=
  match p with
  | Except.ok e1 => e1.created ≠ []
  | Except.error r => r.eff.created ≠ []

/-- Surroundings in which nothing goes wrong: process id 4242, no descriptor
open above standard error, no file present, every marker file can be created,
a buffer of `stdout` that holds the whole output until the end, and every
`write` succeeds. -/
def calm_world (environ : List String) (stdin : List Byte) : World :=
  { pid := 4242, environ := environ, fd_open := fun _ => false,
    file_exists := fun _ => false, can_create := fun _ => true,
    stdin := stdin, flush_before := fun _ => false, flush_after := fun _ => false,
    write := fun _ => WriteOutcome.written }

/-- The surroundings of `calm_world` with descriptor `fd` open. -/
def world_with_fd (fd : Nat) (environ : List String) (stdin : List Byte) : World :=
  { calm_world environ stdin with fd_open := fun i => i == fd }

/-- The surroundings of `calm_world` in which the marker `eof_ok` cannot be
created (the others can). -/
def world_without_eof_marker (environ : List String) (stdin : List Byte) : World :=
  { calm_world environ stdin with can_create := fun f => f != ".kitty.4242.eof_ok" }

/-- The surroundings of `calm_world` with the given outcome for every
`write` on descriptor 1. -/
def world_with_write (o : WriteOutcome) (environ : List String) (stdin : List Byte) : World :=
  { calm_world environ stdin with write := fun _ => o }

/-- A pipe from a terminated Worker to the next one: the reader finds on its
standard input the bytes that reached the writer's descriptor 1, in order. -/
def fed_by (w : World) (writer : Result) : World :=
  { w with stdin := writer.eff.out }

/-- The environment test of a run level in 2..4, as `check_env` states it in
its comment and code. -/
def env_rule (r : Int) (environ : List String) : Prop :=
  (r = 4 → environ.length = 3) ∧
  (r = 4 ∨ r = 2 → Libc.getenv environ "CATFOOD" = some "yummy") ∧
  (r = 3 → Libc.getenv environ "KITTYLITTER" = none)

end Kitty

namespace CatHerder

/-- A parent whose pipes and forks succeed, with children 100, 101 and 102,
and the given raw wait status for each. -/
def os_with_statuses (s2 s3 s4 : Int) : Os :=
  { pipe1 := 0, pipe2 := 0, fork2 := 100, fork3 := 101, fork4 := 102,
    waitpid := fun pid =>
      if pid = 100 then ⟨100, s2⟩ else if pid = 101 then ⟨101, s3⟩ else ⟨pid, s4⟩ }

/-- The raw wait status of a terminated Worker: the exit status in bits 8 to
15, or the signal in the low bits. -/
def raw_status (e : Kitty.Ending) : Int :=
  match e with
  | Kitty.Ending.exited status => 256 * ((status % 256 : Nat) : Int)
  | Kitty.Ending.killed signal => ((signal % 128 : Nat) : Int)

end CatHerder

namespace Libc

/-- An environment as a shell hands it on: every entry has the form
`name=value` and no name occurs twice. -/
def Tidy (environ : List String) : Prop :=
  (∀ e ∈ environ, '=' ∈ e.data) ∧
  environ.Pairwise (fun a b => name_of a ≠ name_of b)

end Libc

/-! ## Properties of the C library functions -/

namespace Libc

/-- The comparison of two character lists is zero exactly when they are equal.
-/
theorem strcmp_chars_eq_zero (a b : List Char) : strcmp_chars a b = 0 ↔ a = b := by
  induction a generalizing b with
  | nil => cases b <;> simp [strcmp_chars]
  | cons x xs ih =>
    cases b with
    | nil => simp [strcmp_chars]
    | cons y ys =>
      by_cases h : x = y
      · simp [strcmp_chars, h, ih]
      · by_cases h2 : x.toNat < y.toNat <;> simp [strcmp_chars, h, h2]

/-- The function `strcmp` returns zero exactly when the two strings are equal.
-/
theorem strcmp_eq_zero (a b : String) : strcmp a b = 0 ↔ a = b := by
  unfold strcmp
  rw [strcmp_chars_eq_zero]
  constructor
  · intro h; exact String.ext h
  · intro h; rw [h]

/-- An entry with `=` has the name `putenv` reads from it. -/
theorem name_of_has_name (string name : String) (h : name_of string = some name) :
    entry_has_name name string = true := by
  unfold name_of at h
  split at h
  · rename_i hmem
    simp only [Option.some.injEq] at h
    subst h
    unfold entry_has_name
    simp only
    generalize string.data = l at hmem
    induction l with
    | nil => simp at hmem
    | cons c cs ih =>
      by_cases hc : c = '='
      · subst hc
        simp [List.takeWhile]
      · have hmem2 : '=' ∈ cs := by
          rcases List.mem_cons.1 hmem with h | h
          · exact absurd h.symm hc
          · exact h
        have hne : (c != '=') = true := by simpa using hc
        have := ih hmem2
        simp only [List.takeWhile, hne, List.cons_append, List.isPrefixOf, beq_self_eq_true,
          Bool.true_and]
        exact this
  · simp at h

/-- Storing over an entry already present keeps the number of entries. -/
theorem add_to_environ_length (environ : List String) (name np : String)
    (h : ∃ e ∈ environ, entry_has_name name e = true) :
    (add_to_environ environ name np).length = environ.length := by
  induction environ with
  | nil => obtain ⟨e, he, _⟩ := h; simp at he
  | cons x xs ih =>
    unfold add_to_environ
    by_cases hx : entry_has_name name x = true
    · simp [hx]
    · simp only [hx]
      obtain ⟨e, he, hn⟩ := h
      rcases List.mem_cons.1 he with h1 | h1
      · subst h1; exact absurd hn hx
      · simp [ih ⟨e, h1, hn⟩]

/-- The function `putenv`, called on an entry of `environ` itself, never makes
`environ` longer. -/
theorem putenv_length_le (environ : List String) (entry : String) (h : entry ∈ environ) :
    (putenv environ entry).2.length ≤ environ.length := by
  unfold putenv
  cases hn : name_of entry with
  | some name =>
    simp only
    rw [add_to_environ_length environ name entry ⟨entry, h, name_of_has_name entry name hn⟩]
  | none =>
    simp only [unsetenv]
    split
    · exact Nat.le_refl _
    · exact List.length_filter_le _ _

/-- The function `putenv` returns 0. -/
theorem putenv_ret (environ : List String) (entry : String) : (putenv environ entry).1 = 0 := by
  unfold putenv
  cases name_of entry <;> rfl

/-- When no entry has the name, `getenv` is null. -/
theorem getenv_none_of_no_entry (environ : List String) (name : String)
    (h : ∀ e ∈ environ, entry_has_name name e = false) : getenv environ name = none := by
  induction environ with
  | nil => rfl
  | cons x xs ih =>
    unfold getenv
    have hx := h x (List.mem_cons_self _ _)
    simp only [hx]
    exact ih (fun e he => h e (List.mem_cons_of_mem _ he))

/-- The characters before the first `=` of `l=rest`, when `l` has no `=`, are
`l`. -/
theorem takeWhile_append_eq (l rest : List Char) (h : '=' ∉ l) :
    (l ++ '=' :: rest).takeWhile (fun c => c != '=') = l := by
  induction l with
  | nil => simp [List.takeWhile]
  | cons c cs ih =>
    have hc : c ≠ '=' := fun hc => h (by rw [hc]; exact List.mem_cons_self _ _)
    have hcs : '=' ∉ cs := fun hm => h (List.mem_cons_of_mem _ hm)
    have hne : (c != '=') = true := by simpa using hc
    rw [List.cons_append, List.takeWhile_cons, hne, if_pos rfl, ih hcs]

/-- The name `putenv` reads from a string has no `=`. -/
theorem name_of_no_eq (string name : String) (h : name_of string = some name) :
    '=' ∉ name.data := by
  unfold name_of at h
  split at h
  · simp only [Option.some.injEq] at h
    subst h
    intro hmem
    have := List.mem_takeWhile_imp hmem
    simp at this
  · simp at h

/-- An entry that starts with `name=`, where `name` has no `=`, has `name` for
its name. -/
theorem name_of_of_has_name (name entry : String) (hname : '=' ∉ name.data)
    (h : entry_has_name name entry = true) : name_of entry = some name := by
  unfold entry_has_name at h
  rw [List.isPrefixOf_iff_prefix] at h
  obtain ⟨rest, hrest⟩ := h
  have hd : entry.data = name.data ++ '=' :: rest := by
    rw [← hrest]; simp
  unfold name_of
  have hmem : '=' ∈ entry.data := by rw [hd]; simp
  rw [if_pos hmem]
  congr 1
  apply String.ext
  show List.takeWhile (fun c => c != '=') entry.data = name.data
  rw [hd]
  exact takeWhile_append_eq _ _ hname

/-- When no two entries share a name, storing an entry of `environ` under its
own name changes nothing. -/
theorem add_to_environ_self (environ : List String) (name entry : String)
    (hp : environ.Pairwise (fun a b => name_of a ≠ name_of b))
    (hmem : entry ∈ environ) (hn : name_of entry = some name) :
    add_to_environ environ name entry = environ := by
  induction environ with
  | nil => simp at hmem
  | cons x xs ih =>
    unfold add_to_environ
    have hpx := List.pairwise_cons.1 hp
    by_cases hx : entry_has_name name x = true
    · simp only [hx, if_true]
      have hnx := name_of_of_has_name name x (name_of_no_eq entry name hn) hx
      rcases List.mem_cons.1 hmem with h | h
      · rw [h]
      · exact absurd (hnx.trans hn.symm) (hpx.1 entry h)
    · rw [if_neg hx]
      rcases List.mem_cons.1 hmem with h | h
      · rw [h] at hn
        exact absurd (name_of_has_name x name hn) hx
      · rw [ih hpx.2 h]

/-- On a tidy environment `putenv` of one of its entries changes nothing. -/
theorem putenv_tidy (environ : List String) (entry : String) (ht : Tidy environ)
    (hmem : entry ∈ environ) : putenv environ entry = (0, environ) := by
  unfold putenv
  have hm := ht.1 entry hmem
  have hn : name_of entry = some ⟨entry.data.takeWhile (fun c => c != '=')⟩ := by
    unfold name_of
    rw [if_pos hm]
  rw [hn]
  simp only
  rw [add_to_environ_self environ _ entry ht.2 hmem hn]

/-- The string `name=v` has the name `name`. -/
theorem has_name_of_append (name v : String) :
    entry_has_name name (name ++ "=" ++ v) = true := by
  unfold entry_has_name
  rw [List.isPrefixOf_iff_prefix]
  exact ⟨v.data, by simp [String.data_append]⟩

/-- After `name=v` is stored under `name`, `getenv` of `name` is `v`. -/
theorem getenv_add_to_environ (environ : List String) (name v : String) :
    getenv (add_to_environ environ name (name ++ "=" ++ v)) name = some v := by
  have hval : (⟨(name ++ "=" ++ v).data.drop (name.data.length + 1)⟩ : String) = v := by
    apply String.ext
    show (name ++ "=" ++ v).data.drop (name.data.length + 1) = v.data
    have : (name ++ "=" ++ v).data = (name.data ++ ['=']) ++ v.data := by
      simp [String.data_append]
    rw [this]
    have hl : name.data.length + 1 = (name.data ++ ['=']).length := by simp
    rw [hl, List.drop_left]
  induction environ with
  | nil =>
    unfold add_to_environ getenv
    rw [if_pos (has_name_of_append name v), hval]
  | cons x xs ih =>
    unfold add_to_environ
    by_cases hx : entry_has_name name x = true
    · rw [if_pos hx]
      unfold getenv
      rw [if_pos (has_name_of_append name v), hval]
    · rw [if_neg hx]
      unfold getenv
      rw [if_neg hx]
      exact ih

end Libc

/-! ## Properties of the Worker -/

namespace Kitty

/-- The descriptors `check_fds` visits are those from 3 to 1023. -/
theorem scanned_fds_mem (i : Nat) : i ∈ scanned_fds ↔ 3 ≤ i ∧ i < 1024 := by
  unfold scanned_fds
  rw [List.mem_range']
  constructor
  · rintro ⟨k, hk, rfl⟩; omega
  · rintro ⟨h1, h2⟩; exact ⟨i - 3, by omega, by omega⟩

/-- With an empty buffer, emptying it does nothing. -/
theorem write_pending_empty (w : World) (e : Effects) (h : e.pending = []) :
    write_pending w e = Put.done e := by
  unfold write_pending
  rw [h]

/-- When every `write` succeeds, emptying the buffer moves its bytes to the
descriptor. -/
theorem write_pending_ok (w : World) (e : Effects)
    (h : ∀ k, w.write k = WriteOutcome.written) :
    write_pending w e = Put.done { e with out := e.out ++ e.pending, pending := [] } := by
  cases e with
  | mk out pending err created =>
    cases pending with
    | nil => simp [write_pending]
    | cons b bs => simp [write_pending, h]

/-- With an empty buffer the process ends with the status given and nothing
more is written. -/
theorem at_exit_empty (w : World) (status : Nat) (e : Effects) (h : e.pending = []) :
    at_exit w status e = ⟨Ending.exited status, e⟩ := by
  unfold at_exit
  rw [write_pending_empty w e h]

/-- When every `write` succeeds the process ends with the status given and
the bytes of the buffer reach the descriptor. -/
theorem at_exit_ok (w : World) (status : Nat) (e : Effects)
    (h : ∀ k, w.write k = WriteOutcome.written) :
    at_exit w status e =
      ⟨Ending.exited status, { e with out := e.out ++ e.pending, pending := [] }⟩ := by
  unfold at_exit
  rw [write_pending_ok w e h]

/-- The end of the process creates no marker and prints no diagnostic. -/
theorem at_exit_frame (w : World) (status : Nat) (e : Effects) :
    (at_exit w status e).eff.created = e.created ∧ (at_exit w status e).eff.err = e.err := by
  cases e with
  | mk out pending err created =>
    cases pending with
    | nil => simp [at_exit, write_pending]
    | cons b bs =>
      unfold at_exit write_pending
      cases w.write (Effects.mk out (b :: bs) err created).out.length <;> simp

/-- When every `write` succeeds, `fputc` returns the byte, which is then the
last of the bytes written or kept in the buffer. -/
theorem fputc_ok (w : World) (b : Byte) (e : Effects)
    (h : ∀ k, w.write k = WriteOutcome.written) :
    ∃ e1, fputc w (b.val : Int) e = Put.done e1 ∧
      e1.out ++ e1.pending = e.out ++ e.pending ++ [b] ∧
      e1.err = e.err ∧ e1.created = e.created := by
  have hc : (Fin.ofNat ((b.val : Int) % 256).toNat : Byte) = b := by
    apply Fin.ext
    have : ((b.val : Int) % 256).toNat = b.val := by omega
    rw [this]
    simp [Fin.ofNat]
  unfold fputc
  simp only [hc]
  by_cases h1 : w.flush_before (e.out.length + e.pending.length) = true <;>
    by_cases h2 : w.flush_after (e.out.length + e.pending.length) = true <;>
    simp [h1, h2, write_pending_ok w _ h]

/-- When every `write` succeeds the copy loop returns, and the bytes written
or kept in the buffer are then those before the loop followed by the input. -/
theorem copy_loop_ok (w : World) (h : ∀ k, w.write k = WriteOutcome.written)
    (input : List Byte) (e : Effects) :
    ∃ e1, copy_loop w input e = Except.ok e1 ∧
      e1.out ++ e1.pending = e.out ++ e.pending ++ input ∧
      e1.err = e.err ∧ e1.created = e.created := by
  induction input generalizing e with
  | nil => exact ⟨e, rfl, by simp, rfl, rfl⟩
  | cons b rest ih =>
    have hb : ((b.val : Int) = EOF) = False := by
      simp only [EOF, eq_iff_iff, iff_false]; omega
    obtain ⟨e1, hf, ho, he, hcr⟩ := fputc_ok w b e h
    obtain ⟨e2, hl, ho2, he2, hcr2⟩ := ih e1
    refine ⟨e2, ?_, ?_, he2.trans he, hcr2.trans hcr⟩
    · simp only [copy_loop, hb, if_false, hf]
      exact hl
    · rw [ho2, ho]
      simp

/-- When the marker file can be created, `touch` returns having recorded it. -/
theorem touch_ok (w : World) (suffix : String) (e : Effects)
    (h : w.can_create (touch_name w.pid suffix) = true) :
    touch w suffix e = Except.ok { e with created := e.created ++ [touch_name w.pid suffix] } := by
  simp [touch, h]

/-- An `exit(1)` with nothing on standard output is silent. -/
theorem exit_silent (w : World) (e : Effects) (ho : e.out = []) (hp : e.pending = []) :
    Silent (exit w 1 e) := by
  unfold exit
  rw [at_exit_empty w 1 e hp]
  exact ⟨rfl, ho, hp⟩

/-- The function `touch` puts nothing on standard output. -/
theorem touch_silent (w : World) (suffix : String) (e : Effects)
    (ho : e.out = []) (hp : e.pending = []) : Silent (touch w suffix e) := by
  unfold touch
  by_cases h : w.can_create (touch_name w.pid suffix) = true
  · simp only [h, if_true]
    exact ⟨ho, hp⟩
  · simp only [h]
    exact exit_silent w _ ho hp

/-- The predicate `Silent` passes through a sequence of two computations. -/
theorem silent_bind (p : Proc) (f : Effects → Proc) (hp : Silent p)
    (hf : ∀ e1, e1.out = [] → e1.pending = [] → Silent (f e1)) : Silent (p >>= f) := by
  cases p with
  | error r => exact hp
  | ok e1 => exact hf e1 hp.1 hp.2

/-- The function `check_fds` puts nothing on standard output. -/
theorem check_fds_silent (w : World) (runlevel : Int) (e : Effects)
    (ho : e.out = []) (hp : e.pending = []) : Silent (check_fds w runlevel e) := by
  unfold check_fds
  apply silent_bind
  · split
    · exact touch_silent w _ _ ho hp
    · exact ⟨ho, hp⟩
  · intro e1 h1 h2
    split
    · exact exit_silent w e1 h1 h2
    · exact ⟨h1, h2⟩

/-- The test of `CATFOOD` leaves standard output as it is. -/
theorem check_env_food_out (environ : List String) (error : Bool) (e : Effects) :
    (check_env_food environ error e).2.out = e.out ∧
    (check_env_food environ error e).2.pending = e.pending ∧
    (check_env_food environ error e).2.created = e.created := by
  unfold check_env_food
  split
  · exact ⟨rfl, rfl, rfl⟩
  · split <;> exact ⟨rfl, rfl, rfl⟩

/-- The test of `KITTYLITTER` leaves standard output as it is. -/
theorem check_env_litter_out (environ : List String) (error : Bool) (e : Effects) :
    (check_env_litter environ error e).2.out = e.out ∧
    (check_env_litter environ error e).2.pending = e.pending ∧
    (check_env_litter environ error e).2.created = e.created := by
  unfold check_env_litter
  split <;> exact ⟨rfl, rfl, rfl⟩

/-- The count of the entries leaves standard output as it is. -/
theorem check_env_count_out (runlevel : Int) (envp : List String) (e : Effects) :
    (check_env_count runlevel envp e).2.out = e.out ∧
    (check_env_count runlevel envp e).2.pending = e.pending ∧
    (check_env_count runlevel envp e).2.created = e.created := by
  unfold check_env_count
  split <;> exact ⟨rfl, rfl, rfl⟩

/-- The three tests of `check_env` leave standard output and the markers as
they are. -/
theorem check_env_tests_out (w : World) (runlevel : Int) (envp : List String) (e : Effects)
    (s : Bool × Effects)
    (hs : s = (if runlevel = 4 ∨ runlevel = 2 then
        check_env_food w.environ (check_env_count runlevel envp e).1
          (check_env_count runlevel envp e).2
      else if runlevel = 3 then
        check_env_litter w.environ (check_env_count runlevel envp e).1
          (check_env_count runlevel envp e).2
      else check_env_count runlevel envp e)) :
    s.2.out = e.out ∧ s.2.pending = e.pending ∧ s.2.created = e.created := by
  have h1 := check_env_count_out runlevel envp e
  rw [hs]
  split
  · have h2 := check_env_food_out w.environ (check_env_count runlevel envp e).1
      (check_env_count runlevel envp e).2
    exact ⟨h2.1.trans h1.1, h2.2.1.trans h1.2.1, h2.2.2.trans h1.2.2⟩
  · split
    · have h2 := check_env_litter_out w.environ (check_env_count runlevel envp e).1
        (check_env_count runlevel envp e).2
      exact ⟨h2.1.trans h1.1, h2.2.1.trans h1.2.1, h2.2.2.trans h1.2.2⟩
    · exact h1

/-- The end of `check_env` puts nothing on standard output. -/
theorem check_env_tail_silent (w : World) (s : Bool × Effects)
    (ho : s.2.out = []) (hp : s.2.pending = []) :
    Silent (if s.1 = true then exit w 1 s.2 else touch w "env_ok" s.2) := by
  split
  · exact exit_silent w _ ho hp
  · exact touch_silent w _ _ ho hp

/-- The function `check_env` puts nothing on standard output. -/
theorem check_env_silent (w : World) (runlevel : Int) (envp : List String) (e : Effects)
    (ho : e.out = []) (hp : e.pending = []) : Silent (check_env w runlevel envp e) := by
  unfold check_env
  by_cases h0 : runlevel = 0 ∨ runlevel = 1
  · rw [if_pos h0]
    exact ⟨ho, hp⟩
  · rw [if_neg h0]
    have key := check_env_tests_out w runlevel envp e _ rfl
    exact check_env_tail_silent w _ (key.1.trans ho) (key.2.1.trans hp)

/-- Before the copy loop nothing is put on standard output, and an end of the
process there is an exit with status 1. -/
theorem checks_silent (w : World) (runlevel : Int) : Silent (checks w runlevel) := by
  unfold checks
  split
  · exact exit_silent w _ rfl rfl
  · split
    · exact exit_silent w _ rfl rfl
    · apply silent_bind _ _ (touch_silent w "launch" _ rfl rfl)
      intro e1 h1 h2
      apply silent_bind _ _ (check_fds_silent w runlevel e1 h1 h2)
      intro e2 h3 h4
      exact check_env_silent w runlevel w.environ e2 h3 h4

/-- The Worker with two arguments, the second of which gives a run level. -/
theorem main_eq (w : World) (prog arg : String) (r : Int) (h : runlevel_of arg = some r) :
    main w [prog, arg] = some (finish w 0
      (checks w r >>= fun e => copy_loop w w.stdin e >>= fun e1 => touch w "eof_ok" e1)) := by
  simp [main, h]

/-- When a check ends the process, its result is the result of the Worker. -/
theorem main_of_checks_error (w : World) (prog arg : String) (r : Int) (res : Result)
    (h : runlevel_of arg = some r) (hc : checks w r = Except.error res) :
    main w [prog, arg] = some res := by
  rw [main_eq w prog arg r h, hc]
  rfl

/-- When the checks return, every `write` succeeds and the last marker can be
created, the Worker ends with status 0 and its whole input has reached
descriptor 1. -/
theorem main_of_checks_ok (w : World) (prog arg : String) (r : Int) (e : Effects)
    (h : runlevel_of arg = some r) (hc : checks w r = Except.ok e)
    (hput : ∀ k, w.write k = WriteOutcome.written)
    (hcreate : w.can_create (touch_name w.pid "eof_ok") = true) :
    main w [prog, arg] = some ⟨Ending.exited 0,
      ⟨w.stdin, [], e.err, e.created ++ [touch_name w.pid "eof_ok"]⟩⟩ := by
  have hk := checks_silent w r
  rw [hc] at hk
  have hout : e.out = [] := hk.1
  have hpend : e.pending = [] := hk.2
  obtain ⟨e1, hl, ho, he, hcr⟩ := copy_loop_ok w hput w.stdin e
  rw [main_eq w prog arg r h, hc]
  simp only [bind, Except.bind, hl, touch_ok w _ _ hcreate, finish, at_exit_ok w _ _ hput]
  rw [ho, hout, hpend, he, hcr]
  rfl

/-- When the checks return and every `write` succeeds but the last marker
cannot be created, the Worker ends with status 1 although its whole input has
reached descriptor 1. -/
theorem main_of_eof_marker_failure (w : World) (prog arg : String) (r : Int) (e : Effects)
    (h : runlevel_of arg = some r) (hc : checks w r = Except.ok e)
    (hput : ∀ k, w.write k = WriteOutcome.written)
    (hcreate : w.can_create (touch_name w.pid "eof_ok") = false) :
    main w [prog, arg] = some ⟨Ending.exited 1,
      ⟨w.stdin, [], e.err ++ ["open: (error text of errno)\n"], e.created⟩⟩ := by
  have hk := checks_silent w r
  rw [hc] at hk
  have hout : e.out = [] := hk.1
  have hpend : e.pending = [] := hk.2
  obtain ⟨e1, hl, ho, he, hcr⟩ := copy_loop_ok w hput w.stdin e
  rw [main_eq w prog arg r h, hc]
  simp only [bind, Except.bind, hl, touch, hcreate, finish, exit, at_exit_ok w _ _ hput,
    eprint, Bool.false_eq_true, if_false]
  rw [ho, hout, hpend, he, hcr]
  rfl

/-- When every `write` succeeds, a Worker that ends with status 0 has
delivered exactly its input to descriptor 1. -/
theorem main_exit_zero (w : World) (prog arg : String) (res : Result)
    (hput : ∀ k, w.write k = WriteOutcome.written)
    (h : main w [prog, arg] = some res) (h0 : res.ending = Ending.exited 0) :
    res.eff.out = w.stdin := by
  cases hr : runlevel_of arg with
  | none => simp [main, hr] at h
  | some r =>
    have hk := checks_silent w r
    cases hc : checks w r with
    | error r1 =>
      rw [hc] at hk
      rw [main_of_checks_error w prog arg r r1 hr hc] at h
      have hres : r1 = res := Option.some.inj h
      rw [← hres, hk.1] at h0
      exact absurd h0 (by decide)
    | ok e =>
      by_cases hcr : w.can_create (touch_name w.pid "eof_ok") = true
      · rw [main_of_checks_ok w prog arg r e hr hc hput hcr] at h
        rw [← Option.some.inj h]
      · have hcf : w.can_create (touch_name w.pid "eof_ok") = false := by simpa using hcr
        rw [main_of_eof_marker_failure w prog arg r e hr hc hput hcf] at h
        rw [← Option.some.inj h] at h0
        have h1 : Ending.exited 1 = Ending.exited 0 := h0
        exact absurd h1 (by decide)


/-- With no descriptor open from 3 to 1023 the scan finds nothing. -/
theorem scan_clean (w : World) (h : ∀ i, 3 ≤ i → i < 1024 → w.fd_open i = false) :
    scanned_fds.filter w.fd_open = [] := by
  rw [List.filter_eq_nil_iff]
  intro i hi
  rw [scanned_fds_mem] at hi
  simp [h i hi.1 hi.2]

/-- With a descriptor open from 3 to 1023 the scan finds something. -/
theorem scan_dirty (w : World) (h : ∃ i, 3 ≤ i ∧ i < 1024 ∧ w.fd_open i = true) :
    (scanned_fds.filter w.fd_open).isEmpty = false := by
  obtain ⟨i, h1, h2, h3⟩ := h
  have : i ∈ scanned_fds.filter w.fd_open := by
    rw [List.mem_filter, scanned_fds_mem]
    exact ⟨⟨h1, h2⟩, h3⟩
  cases hl : scanned_fds.filter w.fd_open with
  | nil => rw [hl] at this; simp at this
  | cons a l => rfl

/-- With no descriptor open from 3 to 1023, `check_fds` only creates its
marker. -/
theorem check_fds_clean (w : World) (runlevel : Int) (e : Effects)
    (h : ∀ i, 3 ≤ i → i < 1024 → w.fd_open i = false) :
    check_fds w runlevel e = touch w "fd_ok" e := by
  unfold check_fds
  simp only [scan_clean w h, List.map_nil, List.append_nil, List.isEmpty_nil, Bool.not_true,
    Bool.not_false, if_true]
  cases touch w "fd_ok" e <;> simp [bind, Except.bind]

/-- With a descriptor open from 3 to 1023, `check_fds` reports what it found
and exits with status 1 unless the run level is 0. -/
theorem check_fds_dirty (w : World) (runlevel : Int) (e : Effects)
    (h : ∃ i, 3 ≤ i ∧ i < 1024 ∧ w.fd_open i = true) :
    check_fds w runlevel e =
      (if runlevel ≠ 0 then
        exit w 1 { e with err := e.err ++ (scanned_fds.filter w.fd_open).map fd_message }
      else Except.ok { e with err := e.err ++ (scanned_fds.filter w.fd_open).map fd_message }) := by
  unfold check_fds
  simp only [scan_dirty w h]
  simp [bind, Except.bind]

/-- At a run level from 0 to 4 without forced failure, with no descriptor open
from 3 to 1023 and the first two markers creatable, the checks come down to
`check_env` after two markers. -/
theorem checks_clean (w : World) (r : Int) (h0 : 0 ≤ r) (h4 : r ≤ 4)
    (hforce : ¬ (r = 3 ∧ is_file w "force_exit" = true))
    (hfd : ∀ i, 3 ≤ i → i < 1024 → w.fd_open i = false)
    (hl : w.can_create (touch_name w.pid "launch") = true)
    (hf : w.can_create (touch_name w.pid "fd_ok") = true) :
    checks w r = check_env w r w.environ
      ⟨[], [], [], [touch_name w.pid "launch", touch_name w.pid "fd_ok"]⟩ := by
  unfold checks
  have h1 : ¬ (r < 0 ∨ r > 5) := by omega
  have h2 : ¬ (r = 5 ∨ (r = 3 ∧ is_file w "force_exit" = true)) := by
    rintro (h | h)
    · omega
    · exact hforce h
  rw [if_neg h1, if_neg h2]
  simp [bind, Except.bind, touch_ok w _ _ hl, touch_ok w _ _ hf, check_fds_clean w r _ hfd,
    Effects.none]

/-- The test of `CATFOOD` raises the error flag exactly when
`getenv("CATFOOD")` is not `yummy`. -/
theorem check_env_food_fst (environ : List String) (error : Bool) (e : Effects) :
    (check_env_food environ error e).1 = true ↔
      (error = true ∨ Libc.getenv environ "CATFOOD" ≠ some "yummy") := by
  unfold check_env_food
  cases hg : Libc.getenv environ "CATFOOD" with
  | none => simp
  | some val =>
    by_cases hv : Libc.strcmp val "yummy" = 0
    · have hval := (Libc.strcmp_eq_zero val "yummy").1 hv
      simp only [ne_eq, hv, not_true_eq_false, if_false]
      simp [hval]
    · have hne : val ≠ "yummy" := fun h => hv ((Libc.strcmp_eq_zero val "yummy").2 h)
      simp [hv, hne]

/-- The count raises the error flag exactly at run level 4 with a number of
entries other than 3. -/
theorem check_env_count_fst (runlevel : Int) (envp : List String) (e : Effects) :
    (check_env_count runlevel envp e).1 = true ↔ (runlevel = 4 ∧ envp.length ≠ 3) := by
  unfold check_env_count
  by_cases h : runlevel = 4 ∧ envp.length ≠ 3
  · simp [h]
  · rw [if_neg h]; simp [h]

/-- The test of `KITTYLITTER` raises the error flag exactly when the variable
is set. -/
theorem check_env_litter_fst (environ : List String) (error : Bool) (e : Effects) :
    (check_env_litter environ error e).1 = true ↔
      (error = true ∨ Libc.getenv environ "KITTYLITTER" ≠ none) := by
  unfold check_env_litter
  cases hg : Libc.getenv environ "KITTYLITTER" <;> simp

/-- Whether the environment test of a run level finds an error. -/
theorem check_env_ok_iff (w : World) (r : Int) (e : Effects)
    (hcreate : w.can_create (touch_name w.pid "env_ok") = true) (h2 : 2 ≤ r) (h4 : r ≤ 4) :
    (∃ e1, check_env w r w.environ e = Except.ok e1) ↔ env_rule r w.environ := by
  unfold check_env env_rule
  have h01 : ¬ (r = 0 ∨ r = 1) := by omega
  rw [if_neg h01]
  simp only
  have hc := check_env_count_fst r w.environ e
  by_cases h42 : r = 4 ∨ r = 2
  · rw [if_pos h42]
    have hf := check_env_food_fst w.environ (check_env_count r w.environ e).1
      (check_env_count r w.environ e).2
    have h3 : r ≠ 3 := by omega
    by_cases hs : (check_env_food w.environ (check_env_count r w.environ e).1
        (check_env_count r w.environ e).2).1 = true
    · rw [if_pos hs]
      have := hf.1 hs
      simp only [exit, reduceCtorEq, exists_false, false_iff, not_and]
      intro ha hb
      rcases this with h | h
      · have := hc.1 h
        exact absurd (ha this.1) this.2
      · exact absurd (hb h42) h
    · rw [if_neg hs, touch_ok w _ _ hcreate]
      have hn := fun h => hs (hf.2 h)
      simp only [Except.ok.injEq, exists_eq', true_iff]
      refine ⟨?_, ?_, fun h => absurd h h3⟩
      · intro h
        by_contra hl
        exact hn (Or.inl (hc.2 ⟨h, hl⟩))
      · intro _
        by_contra hg
        exact hn (Or.inr hg)
  · rw [if_neg h42]
    have h3 : r = 3 := by omega
    rw [if_pos h3]
    have hf := check_env_litter_fst w.environ (check_env_count r w.environ e).1
      (check_env_count r w.environ e).2
    by_cases hs : (check_env_litter w.environ (check_env_count r w.environ e).1
        (check_env_count r w.environ e).2).1 = true
    · rw [if_pos hs]
      have := hf.1 hs
      simp only [exit, reduceCtorEq, exists_false, false_iff, not_and]
      intro ha hb hcc
      rcases this with h | h
      · have := hc.1 h
        omega
      · exact h (hcc h3)
    · rw [if_neg hs, touch_ok w _ _ hcreate]
      have hn := fun h => hs (hf.2 h)
      simp only [Except.ok.injEq, exists_eq', true_iff]
      refine ⟨fun h => by omega, fun h => absurd h h42, ?_⟩
      intro _
      by_contra hg
      exact hn (Or.inr hg)

/-- An `exit` keeps the markers created before it. -/
theorem exit_marked (w : World) (status : Nat) (e : Effects) (h : e.created ≠ []) :
    Marked (exit w status e) := by
  show (at_exit w status e).eff.created ≠ []
  rw [(at_exit_frame w status e).1]
  exact h

/-- After `touch` the list of markers is still not empty. -/
theorem touch_marked (w : World) (suffix : String) (e : Effects) (h : e.created ≠ []) :
    Marked (touch w suffix e) := by
  unfold touch
  by_cases hc : w.can_create (touch_name w.pid suffix) = true
  · simp only [hc, if_true]
    show e.created ++ [touch_name w.pid suffix] ≠ []
    simp
  · simp only [hc]
    exact exit_marked w 1 _ h

/-- The predicate `Marked` passes through a sequence of two computations. -/
theorem marked_bind (p : Proc) (f : Effects → Proc) (hp : Marked p)
    (hf : ∀ e1, e1.created ≠ [] → Marked (f e1)) : Marked (p >>= f) := by
  cases p with
  | error r => exact hp
  | ok e1 => exact hf e1 hp

/-- The function `check_fds` keeps the markers created before it. -/
theorem check_fds_marked (w : World) (runlevel : Int) (e : Effects) (h : e.created ≠ []) :
    Marked (check_fds w runlevel e) := by
  unfold check_fds
  apply marked_bind
  · split
    · exact touch_marked w _ _ h
    · exact h
  · intro e1 h1
    split
    · exact exit_marked w 1 e1 h1
    · exact h1

/-- The function `check_env` keeps the markers created before it. -/
theorem check_env_marked (w : World) (runlevel : Int) (envp : List String) (e : Effects)
    (h : e.created ≠ []) : Marked (check_env w runlevel envp e) := by
  unfold check_env
  by_cases h0 : runlevel = 0 ∨ runlevel = 1
  · rw [if_pos h0]; exact h
  · rw [if_neg h0]
    have key := check_env_tests_out w runlevel envp e _ rfl
    have hs : ∀ s : Bool × Effects, s.2.created = e.created →
        Marked (if s.1 = true then exit w 1 s.2 else touch w "env_ok" s.2) := by
      intro s hs
      split
      · exact exit_marked w 1 _ (by rw [hs]; exact h)
      · exact touch_marked w _ _ (by rw [hs]; exact h)
    exact hs _ key.2.2

/-- Emptying the buffer creates no marker. -/
theorem write_pending_created (w : World) (e : Effects) :
    (write_pending w e).effects.created = e.created := by
  cases e with
  | mk out pending err created =>
    cases pending with
    | nil => simp [write_pending, Put.effects]
    | cons b bs =>
      unfold write_pending
      cases w.write (Effects.mk out (b :: bs) err created).out.length <;> simp [Put.effects]

/-- A call of `fputc` creates no marker. -/
theorem fputc_created (w : World) (c : Int) (e : Effects) :
    (fputc w c e).effects.created = e.created := by
  unfold fputc
  simp only
  by_cases h1 : w.flush_before (e.out.length + e.pending.length) = true
  · simp only [h1, if_true]
    have a := write_pending_created w e
    cases hw : write_pending w e with
    | done e1 =>
      rw [hw] at a
      have a1 : e1.created = e.created := a
      simp only
      by_cases h2 : w.flush_after (e.out.length + e.pending.length) = true
      · simp only [h2, if_true]
        rw [write_pending_created]
        exact a1
      · simp only [h2, Bool.false_eq_true, if_false]
        exact a1
    | eof e1 => rw [hw] at a; exact a
    | over r => rw [hw] at a; exact a
  · simp only [h1, Bool.false_eq_true, if_false]
    by_cases h2 : w.flush_after (e.out.length + e.pending.length) = true
    · simp only [h2, if_true]
      rw [write_pending_created]
    · simp only [h2, Bool.false_eq_true, if_false]
      rfl

/-- The copy loop keeps the markers created before it. -/
theorem copy_loop_marked (w : World) (input : List Byte) (e : Effects) (h : e.created ≠ []) :
    Marked (copy_loop w input e) := by
  induction input generalizing e with
  | nil => exact h
  | cons b rest ih =>
    unfold copy_loop
    simp only
    split
    · exact h
    · have hf := fputc_created w (b.val : Int) e
      cases hp : fputc w (b.val : Int) e with
      | done e1 =>
        rw [hp] at hf
        have hf1 : e1.created = e.created := hf
        simp only
        exact ih e1 (by rw [hf1]; exact h)
      | eof e1 =>
        rw [hp] at hf
        have hf1 : e1.created = e.created := hf
        simp only
        exact exit_marked w 1 _ (by show e1.created ≠ []; rw [hf1]; exact h)
      | over r =>
        rw [hp] at hf
        have hf1 : r.eff.created = e.created := hf
        simp only
        show r.eff.created ≠ []
        rw [hf1]; exact h

/-- At a run level from 0 to 5 the checks either exit with a diagnostic that
is not the usage text or leave a marker. -/
theorem checks_in_range (w : World) (r : Int) (h0 : 0 ≤ r) (h5 : r ≤ 5) :
    (∃ res, checks w r = Except.error res ∧ res.eff.err ≠ usage_text) ∨ Marked (checks w r) := by
  unfold checks
  have h1 : ¬ (r < 0 ∨ r > 5) := by omega
  rw [if_neg h1]
  split
  · left
    refine ⟨_, rfl, ?_⟩
    rw [(at_exit_frame w 1 _).2]
    simp [eprint, Effects.none, usage_text]
  · by_cases hc : w.can_create (touch_name w.pid "launch") = true
    · right
      rw [touch_ok w _ _ hc]
      apply marked_bind (Except.ok _) _ (by simp [Marked])
      intro e1 h1
      apply marked_bind _ _ (check_fds_marked w r _ h1)
      intro e2 h2
      exact check_env_marked w r _ e2 h2
    · left
      refine ⟨at_exit w 1 (eprint "open: (error text of errno)\n" Effects.none), ?_, ?_⟩
      · simp [touch, hc, bind, Except.bind, exit]
      · rw [(at_exit_frame w 1 _).2]
        simp [eprint, Effects.none, usage_text]

/-- A result with a marker is not the result of `usage`. -/
theorem finish_marked (w : World) (status : Nat) (p : Proc) (h : Marked p) :
    finish w status p ≠ ⟨Ending.exited 1, ⟨[], [], usage_text, []⟩⟩ := by
  cases p with
  | error res =>
    intro heq
    have : res = ⟨Ending.exited 1, ⟨[], [], usage_text, []⟩⟩ := heq
    rw [this] at h
    exact h rfl
  | ok e =>
    intro heq
    have hc : (at_exit w status e).eff.created = [] := by
      have : at_exit w status e = ⟨Ending.exited 1, ⟨[], [], usage_text, []⟩⟩ := heq
      rw [this]
    rw [(at_exit_frame w status e).1] at hc
    exact h hc

/-- With a run level in 0..5 the Worker does not end the way `usage` ends. -/
theorem main_in_range_not_usage (w : World) (prog arg : String) (r : Int)
    (h : runlevel_of arg = some r) (h0 : 0 ≤ r) (h5 : r ≤ 5) :
    main w [prog, arg] ≠ some ⟨Ending.exited 1, ⟨[], [], usage_text, []⟩⟩ := by
  rcases checks_in_range w r h0 h5 with ⟨res, hres, herr⟩ | hm
  · rw [main_of_checks_error w prog arg r res h hres]
    intro heq
    simp only [Option.some.injEq] at heq
    rw [heq] at herr
    exact herr rfl
  · rw [main_eq w prog arg r h]
    intro heq
    simp only [Option.some.injEq] at heq
    refine finish_marked w 0 _ ?_ heq
    apply marked_bind _ _ hm
    intro e he
    apply marked_bind _ _ (copy_loop_marked w _ e he)
    intro e1 he1
    exact touch_marked w _ e1 he1

/-- With a run level outside 0..5 the Worker ends the way `usage` ends. -/
theorem main_out_of_range (w : World) (prog arg : String) (r : Int)
    (h : runlevel_of arg = some r) (hr : r < 0 ∨ r > 5) :
    main w [prog, arg] = some ⟨Ending.exited 1, ⟨[], [], usage_text, []⟩⟩ := by
  rw [main_eq w prog arg r h]
  unfold checks
  rw [if_pos hr]
  rfl

/-- At a run level from 2 to 4, with no forced failure, no descriptor open
from 3 to 1023, markers creatable and every `write` succeeding: status 0
exactly when the environment rule of the level holds, with the input
delivered; otherwise status 1 and no output. -/
theorem main_env_level (w : World) (prog arg : String) (r : Int)
    (hr : runlevel_of arg = some r) (h2 : 2 ≤ r) (h4 : r ≤ 4)
    (hforce : ¬ (r = 3 ∧ is_file w "force_exit" = true))
    (hfd : ∀ i, 3 ≤ i → i < 1024 → w.fd_open i = false)
    (hcreate : ∀ f, w.can_create f = true)
    (hput : ∀ k, w.write k = WriteOutcome.written) :
    ∃ res, main w [prog, arg] = some res ∧
      (res.ending = Ending.exited 0 ↔ env_rule r w.environ) ∧
      (res.ending = Ending.exited 0 → res.eff.out = w.stdin) ∧
      (res.ending ≠ Ending.exited 0 → res.ending = Ending.exited 1 ∧ res.eff.out = []) := by
  have hclean := checks_clean w r (by omega) h4 hforce hfd (hcreate _) (hcreate _)
  have hiff := check_env_ok_iff w r
    ⟨[], [], [], [touch_name w.pid "launch", touch_name w.pid "fd_ok"]⟩ (hcreate _) h2 h4
  rw [← hclean] at hiff
  have hk := checks_silent w r
  cases hc : checks w r with
  | error res =>
    rw [hc] at hk hiff
    have hs : res.ending = Ending.exited 1 := hk.1
    refine ⟨res, main_of_checks_error w prog arg r res hr hc, ?_, ?_, ?_⟩
    · constructor
      · intro h
        rw [hs] at h
        exact absurd h (by decide)
      · intro h
        obtain ⟨e1, he1⟩ := hiff.2 h
        cases he1
    · intro h
      rw [hs] at h
      exact absurd h (by decide)
    · intro _; exact ⟨hs, hk.2.1⟩
  | ok e =>
    rw [hc] at hiff
    refine ⟨_, main_of_checks_ok w prog arg r e hr hc hput (hcreate _), ?_, ?_, ?_⟩
    · constructor
      · intro _; exact hiff.1 ⟨e, rfl⟩
      · intro _; rfl
    · intro _; rfl
    · intro h; exact absurd rfl h

/-- At a run level of 1 or more, a descriptor open from 3 to 1023 makes the
checks end the process. -/
theorem checks_dirty_exits (w : World) (r : Int) (h1 : 1 ≤ r)
    (hfd : ∃ i, 3 ≤ i ∧ i < 1024 ∧ w.fd_open i = true) :
    ∃ res, checks w r = Except.error res := by
  unfold checks
  split
  · exact ⟨_, rfl⟩
  · split
    · exact ⟨_, rfl⟩
    · by_cases hc : w.can_create (touch_name w.pid "launch") = true
      · rw [touch_ok w _ _ hc]
        have hr : r ≠ 0 := by omega
        show ∃ res, (check_fds w r _ >>= fun e2 => check_env w r w.environ e2) =
          Except.error res
        rw [check_fds_dirty w r _ hfd, if_pos hr]
        exact ⟨_, rfl⟩
      · refine ⟨at_exit w 1 (eprint "open: (error text of errno)\n" Effects.none), ?_⟩
        simp [touch, hc, bind, Except.bind, exit]

/-- At run level 0, a descriptor open from 3 to 1023 is reported and the
checks return. -/
theorem checks_level0 (w : World)
    (hc : w.can_create (touch_name w.pid "launch") = true)
    (hfd : ∃ i, 3 ≤ i ∧ i < 1024 ∧ w.fd_open i = true) :
    checks w 0 = Except.ok
      ⟨[], [], (scanned_fds.filter w.fd_open).map fd_message, [touch_name w.pid "launch"]⟩ := by
  unfold checks
  have h5 : ¬ ((0 : Int) = 5 ∨ ((0 : Int) = 3 ∧ is_file w "force_exit" = true)) := by
    rintro (h | h)
    · exact absurd h (by decide)
    · exact absurd h.1 (by decide)
  rw [if_neg (by decide), if_neg h5, touch_ok w _ _ hc]
  show (check_fds w 0 _ >>= fun e2 => check_env w 0 w.environ e2) = _
  rw [check_fds_dirty w 0 _ hfd]
  simp [bind, Except.bind, check_env, Effects.none]


/-- C10: at run level 2, with no descriptor open in the scanned range, every
marker file creatable and no write failure, the Worker ends with status 0
exactly when `getenv("CATFOOD")` is the string `yummy`; otherwise (the variable
absent, or any other value) it ends with status 1 and has written no byte. -/
theorem kitty_level2_exit (w : World) (prog : String)
    (hfd : ∀ i, 3 ≤ i → i < 1024 → w.fd_open i = false)
    (hcreate : ∀ f, w.can_create f = true)
    (hput : ∀ k, w.write k = WriteOutcome.written) :
    ∃ res, main w [prog, "-2"] = some res ∧
      (res.ending = Ending.exited 0 ↔ Libc.getenv w.environ "CATFOOD" = some "yummy") ∧
      (Libc.getenv w.environ "CATFOOD" ≠ some "yummy" →
        res.ending = Ending.exited 1 ∧ res.eff.out = []) := by
  obtain ⟨res, hm, hiff, _, hne⟩ :=
    main_env_level w prog "-2" 2 rfl (by decide) (by decide) (fun h => absurd h.1 (by decide))
      hfd hcreate hput
  have hrule : env_rule 2 w.environ ↔ Libc.getenv w.environ "CATFOOD" = some "yummy" := by
    unfold env_rule
    constructor
    · intro h; exact h.2.1 (Or.inr rfl)
    · intro h
      exact ⟨fun h4 => absurd h4 (by decide), fun _ => h, fun h3 => absurd h3 (by decide)⟩
  refine ⟨res, hm, hiff.trans hrule, ?_⟩
  intro hg
  exact hne (fun h0 => hg ((hiff.trans hrule).1 h0))

/-- Witness of C10: at level 2 the Worker ends with status 0 with
`CATFOOD=yummy`, and with status 1 and no output with `CATFOOD=Yummy` (a
different case). -/
theorem kitty_level2_exit_witness :
    (∃ res, main (calm_world ["CATFOOD=yummy"] [104, 105]) ["kitty", "-2"] = some res ∧
      res.ending = Ending.exited 0) ∧
    (∃ res, main (calm_world ["CATFOOD=Yummy"] [104, 105]) ["kitty", "-2"] = some res ∧
      res.ending = Ending.exited 1 ∧ res.eff.out = []) := by
  constructor
  · obtain ⟨res, hm, hiff, _⟩ := kitty_level2_exit (calm_world ["CATFOOD=yummy"] [104, 105])
      "kitty" (fun _ _ _ => rfl) (fun _ => rfl) (fun _ => rfl)
    exact ⟨res, hm, hiff.2 rfl⟩
  · obtain ⟨res, hm, _, hne⟩ := kitty_level2_exit (calm_world ["CATFOOD=Yummy"] [104, 105])
      "kitty" (fun _ _ _ => rfl) (fun _ => rfl) (fun _ => rfl)
    exact ⟨res, hm, hne (by decide)⟩

/-- C4: at run level 4, with no descriptor open in the scanned range, every
marker file creatable and no write failure, the Worker ends with status 0
exactly when the environment has three entries and `getenv("CATFOOD")` is the
string `yummy`; with any other number of entries, a fourth one included, it
ends with status 1. -/
theorem kitty_level4_exit (w : World) (prog : String)
    (hfd : ∀ i, 3 ≤ i → i < 1024 → w.fd_open i = false)
    (hcreate : ∀ f, w.can_create f = true)
    (hput : ∀ k, w.write k = WriteOutcome.written) :
    ∃ res, main w [prog, "-4"] = some res ∧
      (res.ending = Ending.exited 0 ↔
        (w.environ.length = 3 ∧ Libc.getenv w.environ "CATFOOD" = some "yummy")) ∧
      (w.environ.length ≠ 3 → res.ending = Ending.exited 1) := by
  obtain ⟨res, hm, hiff, _, hne⟩ :=
    main_env_level w prog "-4" 4 rfl (by decide) (by decide) (fun h => absurd h.1 (by decide))
      hfd hcreate hput
  have hrule : env_rule 4 w.environ ↔
      (w.environ.length = 3 ∧ Libc.getenv w.environ "CATFOOD" = some "yummy") := by
    unfold env_rule
    constructor
    · intro h; exact ⟨h.1 rfl, h.2.1 (Or.inl rfl)⟩
    · intro h; exact ⟨fun _ => h.1, fun _ => h.2, fun h3 => absurd h3 (by decide)⟩
  refine ⟨res, hm, hiff.trans hrule, ?_⟩
  intro hl
  exact (hne (fun h0 => hl ((hiff.trans hrule).1 h0).1)).1

/-- Witness of C4: at level 4 the Worker ends with status 0 with the three
entries `PATH`, `HOME` and `CATFOOD=yummy`, and with status 1 when the entry
`EXTRA` is added to them. -/
theorem kitty_level4_exit_witness :
    (∃ res, main (calm_world ["PATH=/bin", "HOME=/root", "CATFOOD=yummy"] [104])
        ["kitty", "-4"] = some res ∧ res.ending = Ending.exited 0) ∧
    (∃ res, main (calm_world ["PATH=/bin", "HOME=/root", "CATFOOD=yummy", "EXTRA=1"] [104])
        ["kitty", "-4"] = some res ∧ res.ending = Ending.exited 1) := by
  constructor
  · obtain ⟨res, hm, hiff, _⟩ := kitty_level4_exit
      (calm_world ["PATH=/bin", "HOME=/root", "CATFOOD=yummy"] [104])
      "kitty" (fun _ _ _ => rfl) (fun _ => rfl) (fun _ => rfl)
    exact ⟨res, hm, hiff.2 ⟨rfl, rfl⟩⟩
  · obtain ⟨res, hm, _, hne⟩ := kitty_level4_exit
      (calm_world ["PATH=/bin", "HOME=/root", "CATFOOD=yummy", "EXTRA=1"] [104])
      "kitty" (fun _ _ _ => rfl) (fun _ => rfl) (fun _ => rfl)
    exact ⟨res, hm, hne (by decide)⟩

/-- C5: at run level 4 the Worker accepts the three entries `FOO=1`, `BAR=2`
and `CATFOOD=yummy`, none of which is `PATH` or `HOME`: it ends with status
0, having created the marker `env_ok` and copied its input. -/
theorem kitty_level4_accepts_other_names :
    main (calm_world ["FOO=1", "BAR=2", "CATFOOD=yummy"] [104, 105]) ["kitty", "-4"] =
      some ⟨Ending.exited 0, ⟨[104, 105], [], [],
        [".kitty.4242.launch", ".kitty.4242.fd_ok", ".kitty.4242.env_ok",
         ".kitty.4242.eof_ok"]⟩⟩ := by
  have hc : checks (calm_world ["FOO=1", "BAR=2", "CATFOOD=yummy"] [104, 105]) 4 =
      Except.ok ⟨[], [], [],
        [".kitty.4242.launch", ".kitty.4242.fd_ok", ".kitty.4242.env_ok"]⟩ := by
    rw [checks_clean _ 4 (by decide) (by decide) (fun h => absurd h.1 (by decide))
      (fun _ _ _ => rfl) rfl rfl]
    rfl
  rw [main_of_checks_ok _ "kitty" "-4" 4 _ rfl hc (fun _ => rfl) rfl]
  rfl

/-- What `check_fds` does: when a descriptor in the scanned range 3..1023 is
open, a Worker at a run level from 1 to 5 ends with status 1 and writes no
byte, and a Worker at run level 0 (marker files creatable, no write failure)
reports the descriptor, copies its whole input and ends with status 0; when no
descriptor in 3..1023 is open, `check_fds` at any run level does nothing but
create its marker, and returns when the marker can be created. -/
theorem fd_check_in_scanned_range :
    (∀ (w : World) (prog arg : String) (r : Int),
      runlevel_of arg = some r → 1 ≤ r → r ≤ 5 →
      (∃ i, 3 ≤ i ∧ i < 1024 ∧ w.fd_open i = true) →
      ∃ res, main w [prog, arg] = some res ∧ res.ending = Ending.exited 1 ∧
        res.eff.out = []) ∧
    (∀ (w : World) (prog arg : String),
      runlevel_of arg = some 0 →
      (∃ i, 3 ≤ i ∧ i < 1024 ∧ w.fd_open i = true) →
      (∀ f, w.can_create f = true) → (∀ k, w.write k = WriteOutcome.written) →
      ∃ res, main w [prog, arg] = some res ∧ res.ending = Ending.exited 0 ∧
        res.eff.out = w.stdin ∧
        res.eff.err = (scanned_fds.filter w.fd_open).map fd_message) ∧
    (∀ (w : World) (r : Int) (e : Effects),
      (∀ i, 3 ≤ i → i < 1024 → w.fd_open i = false) →
      check_fds w r e = touch w "fd_ok" e ∧
      (w.can_create (touch_name w.pid "fd_ok") = true →
        check_fds w r e =
          Except.ok { e with created := e.created ++ [touch_name w.pid "fd_ok"] })) := by
  refine ⟨?_, ?_, ?_⟩
  · intro w prog arg r hr h1 _ hfd
    obtain ⟨res, hres⟩ := checks_dirty_exits w r h1 hfd
    have hk := checks_silent w r
    rw [hres] at hk
    exact ⟨res, main_of_checks_error w prog arg r res hr hres, hk.1, hk.2.1⟩
  · intro w prog arg hr hfd hcreate hput
    have hc := checks_level0 w (hcreate _) hfd
    exact ⟨_, main_of_checks_ok w prog arg 0 _ hr hc hput (hcreate _), rfl, rfl, rfl⟩
  · intro w r e hfd
    have h := check_fds_clean w r e hfd
    refine ⟨h, fun hc => ?_⟩
    rw [h, touch_ok w _ _ hc]

/-- C7: descriptor 1024, a descriptor numbered 3 or above, is open, and the
Worker at run level 1 does not see it: it creates the marker `fd_ok`, copies
its input and ends with status 0. -/
theorem kitty_fd_1024_not_seen :
    (world_with_fd 1024 [] [104, 105]).fd_open 1024 = true ∧
    main (world_with_fd 1024 [] [104, 105]) ["kitty", "-1"] =
      some ⟨Ending.exited 0, ⟨[104, 105], [], [],
        [".kitty.4242.launch", ".kitty.4242.fd_ok", ".kitty.4242.eof_ok"]⟩⟩ := by
  refine ⟨rfl, ?_⟩
  have hfd : ∀ i, 3 ≤ i → i < 1024 → (world_with_fd 1024 [] [104, 105]).fd_open i = false := by
    intro i _ h2
    show (i == 1024) = false
    simp only [beq_eq_false_iff_ne, ne_eq]
    omega
  have hc : checks (world_with_fd 1024 [] [104, 105]) 1 =
      Except.ok ⟨[], [], [], [".kitty.4242.launch", ".kitty.4242.fd_ok"]⟩ := by
    rw [checks_clean _ 1 (by decide) (by decide) (fun h => absurd h.1 (by decide)) hfd
      rfl rfl]
    rfl
  rw [main_of_checks_ok _ "kitty" "-1" 1 _ rfl hc (fun _ => rfl) rfl]
  rfl

/-- What `main` does with its argument: the Worker with one argument takes the
usage path (status 1, the usage text on standard error, no marker file, no
byte written) when the argument has a single character, and, for a longer
argument, exactly when its second character is not one of the digits 0 to 5;
the first character and what follows the second are not looked at. -/
theorem usage_path_by_second_character :
    (∀ (w : World) (prog : String) (a : Char),
      main w [prog, ⟨[a]⟩] = some ⟨Ending.exited 1, ⟨[], [], usage_text, []⟩⟩) ∧
    (∀ (w : World) (prog : String) (a c : Char) (rest : List Char),
      main w [prog, ⟨a :: c :: rest⟩] = some ⟨Ending.exited 1, ⟨[], [], usage_text, []⟩⟩ ↔
        c ∉ ['0', '1', '2', '3', '4', '5']) := by
  constructor
  · intro w prog a
    exact main_out_of_range w prog ⟨[a]⟩ _ rfl (Or.inl (by decide))
  · intro w prog a c rest
    have hr : runlevel_of ⟨a :: c :: rest⟩ = some ((c.toNat : Int) - ('0'.toNat : Int)) := rfl
    have h48 : ('0'.toNat : Int) = 48 := by decide
    constructor
    · intro hm hc
      have hrange : 0 ≤ (c.toNat : Int) - ('0'.toNat : Int) ∧
          (c.toNat : Int) - ('0'.toNat : Int) ≤ 5 := by
        simp only [List.mem_cons, List.mem_singleton, List.not_mem_nil, or_false] at hc
        rcases hc with h | h | h | h | h | h <;> subst h <;> decide
      exact main_in_range_not_usage w prog _ _ hr hrange.1 hrange.2 hm
    · intro hc
      by_contra hm
      apply hc
      have hrange : 0 ≤ (c.toNat : Int) - ('0'.toNat : Int) ∧
          (c.toNat : Int) - ('0'.toNat : Int) ≤ 5 := by
        by_contra hout
        apply hm
        apply main_out_of_range w prog _ _ hr
        omega
      rw [h48] at hrange
      have h1 : 48 ≤ c.toNat := by omega
      have h2 : c.toNat ≤ 53 := by omega
      have hcases : c.toNat = 48 ∨ c.toNat = 49 ∨ c.toNat = 50 ∨ c.toNat = 51 ∨
          c.toNat = 52 ∨ c.toNat = 53 := by omega
      have key : ∀ d : Char, c.toNat = d.toNat → c = d := by
        intro d hd
        apply Char.ext
        apply UInt32.ext
        exact hd
      simp only [List.mem_cons, List.mem_singleton, List.not_mem_nil, or_false]
      rcases hcases with h | h | h | h | h | h
      · exact Or.inl (key '0' h)
      · exact Or.inr (Or.inl (key '1' h))
      · exact Or.inr (Or.inr (Or.inl (key '2' h)))
      · exact Or.inr (Or.inr (Or.inr (Or.inl (key '3' h))))
      · exact Or.inr (Or.inr (Or.inr (Or.inr (Or.inl (key '4' h)))))
      · exact Or.inr (Or.inr (Or.inr (Or.inr (Or.inr (key '5' h)))))

/-- C6: the arguments `x2` (no leading `-`), `-2junk` and `-10` (trailing
characters) are not of the form `-n`, yet none takes the usage path: they are
taken as run levels 2, 2 and 1; with `CATFOOD=yummy` the Worker creates its
markers, copies its input and ends with status 0 each time. -/
theorem kitty_x2_runs_level2 :
    main (calm_world ["CATFOOD=yummy"] [104, 105]) ["kitty", "x2"] =
      some ⟨Ending.exited 0, ⟨[104, 105], [], [],
        [".kitty.4242.launch", ".kitty.4242.fd_ok", ".kitty.4242.env_ok",
         ".kitty.4242.eof_ok"]⟩⟩ ∧
    main (calm_world ["CATFOOD=yummy"] [104, 105]) ["kitty", "-2junk"] =
      some ⟨Ending.exited 0, ⟨[104, 105], [], [],
        [".kitty.4242.launch", ".kitty.4242.fd_ok", ".kitty.4242.env_ok",
         ".kitty.4242.eof_ok"]⟩⟩ ∧
    main (calm_world ["CATFOOD=yummy"] [104, 105]) ["kitty", "-10"] =
      some ⟨Ending.exited 0, ⟨[104, 105], [], [],
        [".kitty.4242.launch", ".kitty.4242.fd_ok", ".kitty.4242.eof_ok"]⟩⟩ := by
  have hc : checks (calm_world ["CATFOOD=yummy"] [104, 105]) 2 =
      Except.ok ⟨[], [], [],
        [".kitty.4242.launch", ".kitty.4242.fd_ok", ".kitty.4242.env_ok"]⟩ := by
    rw [checks_clean _ 2 (by decide) (by decide) (fun h => absurd h.1 (by decide))
      (fun _ _ _ => rfl) rfl rfl]
    rfl
  have hc1 : checks (calm_world ["CATFOOD=yummy"] [104, 105]) 1 =
      Except.ok ⟨[], [], [], [".kitty.4242.launch", ".kitty.4242.fd_ok"]⟩ := by
    rw [checks_clean _ 1 (by decide) (by decide) (fun h => absurd h.1 (by decide))
      (fun _ _ _ => rfl) rfl rfl]
    rfl
  refine ⟨?_, ?_, ?_⟩
  · rw [main_of_checks_ok _ "kitty" "x2" 2 _ rfl hc (fun _ => rfl) rfl]
    rfl
  · rw [main_of_checks_ok _ "kitty" "-2junk" 2 _ rfl hc (fun _ => rfl) rfl]
    rfl
  · rw [main_of_checks_ok _ "kitty" "-10" 1 _ rfl hc1 (fun _ => rfl) rfl]
    rfl

/-- C3, as amended: when no write on standard output fails, the copy loop
returns having passed to standard output exactly the bytes of standard input,
in order, whatever their values (0x00 and 0xFF are bytes like the others); a
Worker whose checks pass and whose marker `eof_ok` can be created then ends
with status 0 with exactly its input written; and three Workers at levels 2,
3 and 4 whose checks pass and whose markers `eof_ok` can be created, each
reading what the one before wrote, all end with status 0 and what the last
one has written is the first one's input. -/
theorem kitty_copy_identity :
    (∀ (w : World) (e : Effects), (∀ k, w.write k = WriteOutcome.written) →
      ∃ e1, copy_loop w w.stdin e = Except.ok e1 ∧
        e1.out ++ e1.pending = e.out ++ e.pending ++ w.stdin) ∧
    (∀ (w : World) (prog arg : String) (r : Int) (e : Effects),
      runlevel_of arg = some r → checks w r = Except.ok e →
      (∀ k, w.write k = WriteOutcome.written) →
      w.can_create (touch_name w.pid "eof_ok") = true →
      ∃ res, main w [prog, arg] = some res ∧ res.ending = Ending.exited 0 ∧
        res.eff.out = w.stdin ∧ res.eff.pending = []) ∧
    (∀ (w1 w2 w3 : World) (e1 e2 e3 : Effects),
      checks w1 2 = Except.ok e1 → checks w2 3 = Except.ok e2 →
      checks w3 4 = Except.ok e3 →
      (∀ k, w1.write k = WriteOutcome.written) →
      (∀ k, w2.write k = WriteOutcome.written) →
      (∀ k, w3.write k = WriteOutcome.written) →
      w1.can_create (touch_name w1.pid "eof_ok") = true →
      w2.can_create (touch_name w2.pid "eof_ok") = true →
      w3.can_create (touch_name w3.pid "eof_ok") = true →
      ∃ r1 r2 r3,
        main w1 ["kitty", "-2"] = some r1 ∧
        main (fed_by w2 r1) ["kitty", "-3"] = some r2 ∧
        main (fed_by w3 r2) ["kitty", "-4"] = some r3 ∧
        r1.ending = Ending.exited 0 ∧ r2.ending = Ending.exited 0 ∧
        r3.ending = Ending.exited 0 ∧
        r3.eff.out = w1.stdin) := by
  refine ⟨?_, ?_, ?_⟩
  · intro w e h
    obtain ⟨e1, h1, h2, _⟩ := copy_loop_ok w h w.stdin e
    exact ⟨e1, h1, h2⟩
  · intro w prog arg r e hr hc hput hcreate
    exact ⟨_, main_of_checks_ok w prog arg r e hr hc hput hcreate, rfl, rfl, rfl⟩
  · intro w1 w2 w3 e1 e2 e3 h1 h2 h3 p1 p2 p3 c1 c2 c3
    have m1 := main_of_checks_ok w1 "kitty" "-2" 2 e1 rfl h1 p1 c1
    have m2 := main_of_checks_ok (fed_by w2 ⟨Ending.exited 0, ⟨w1.stdin, [], e1.err,
      e1.created ++ [touch_name w1.pid "eof_ok"]⟩⟩) "kitty" "-3" 3 e2 rfl h2 p2 c2
    have m3 := main_of_checks_ok (fed_by w3 ⟨Ending.exited 0, ⟨w1.stdin, [], e2.err,
      e2.created ++ [touch_name w2.pid "eof_ok"]⟩⟩) "kitty" "-4" 4 e3 rfl h3 p3 c3
    exact ⟨_, _, _, m1, m2, m3, rfl, rfl, rfl, rfl⟩

/-- Witness of C3 as amended: the bytes 0x00, 0xFF and 0x68 pass unchanged
through three Workers at levels 2, 3 and 4. -/
theorem kitty_copy_identity_witness :
    ∃ r1 r2 r3,
      main (calm_world ["CATFOOD=yummy"] [0, 255, 104]) ["kitty", "-2"] = some r1 ∧
      main (fed_by (calm_world [] []) r1) ["kitty", "-3"] = some r2 ∧
      main (fed_by (calm_world ["PATH=/bin", "HOME=/root", "CATFOOD=yummy"] []) r2)
        ["kitty", "-4"] = some r3 ∧
      r1.ending = Ending.exited 0 ∧ r2.ending = Ending.exited 0 ∧
      r3.ending = Ending.exited 0 ∧
      r3.eff.out = [0, 255, 104] := by
  have h1 : checks (calm_world ["CATFOOD=yummy"] [0, 255, 104]) 2 =
      Except.ok ⟨[], [], [],
        [".kitty.4242.launch", ".kitty.4242.fd_ok", ".kitty.4242.env_ok"]⟩ := by
    rw [checks_clean _ 2 (by decide) (by decide) (fun h => absurd h.1 (by decide))
      (fun _ _ _ => rfl) rfl rfl]
    rfl
  have h2 : checks (calm_world [] []) 3 =
      Except.ok ⟨[], [], [],
        [".kitty.4242.launch", ".kitty.4242.fd_ok", ".kitty.4242.env_ok"]⟩ := by
    rw [checks_clean _ 3 (by decide) (by decide) (fun h => absurd h.2 (by decide))
      (fun _ _ _ => rfl) rfl rfl]
    rfl
  have h3 : checks (calm_world ["PATH=/bin", "HOME=/root", "CATFOOD=yummy"] []) 4 =
      Except.ok ⟨[], [], [],
        [".kitty.4242.launch", ".kitty.4242.fd_ok", ".kitty.4242.env_ok"]⟩ := by
    rw [checks_clean _ 4 (by decide) (by decide) (fun h => absurd h.1 (by decide))
      (fun _ _ _ => rfl) rfl rfl]
    rfl
  exact kitty_copy_identity.2.2 _ _ _ _ _ _ h1 h2 h3 (fun _ => rfl) (fun _ => rfl)
    (fun _ => rfl) rfl rfl rfl

/-- Counterexample to C3 as stated: no write on standard output fails and the
three input bytes 0x00, 0xFF and 0x68 all reach standard output, but the
marker `eof_ok` cannot be created, so the Worker (level 2, `CATFOOD=yummy`)
ends with status 1, not 0. -/
theorem kitty_copy_then_exit_one :
    (∀ k, (world_without_eof_marker ["CATFOOD=yummy"] [0, 255, 104]).write k =
      WriteOutcome.written) ∧
    main (world_without_eof_marker ["CATFOOD=yummy"] [0, 255, 104]) ["kitty", "-2"] =
      some ⟨Ending.exited 1, ⟨[0, 255, 104], [], ["open: (error text of errno)\n"],
        [".kitty.4242.launch", ".kitty.4242.fd_ok", ".kitty.4242.env_ok"]⟩⟩ := by
  refine ⟨fun _ => rfl, ?_⟩
  have hc : checks (world_without_eof_marker ["CATFOOD=yummy"] [0, 255, 104]) 2 =
      Except.ok ⟨[], [], [],
        [".kitty.4242.launch", ".kitty.4242.fd_ok", ".kitty.4242.env_ok"]⟩ := by
    rw [checks_clean _ 2 (by decide) (by decide) (fun h => absurd h.1 (by decide))
      (fun _ _ _ => rfl) rfl rfl]
    rfl
  rw [main_of_eof_marker_failure _ "kitty" "-2" 2 _ rfl hc (fun _ => rfl) rfl]
  rfl

/-- A standard output on which every `write` fails (a full device), with a
buffer that holds the whole output: `fputc` never returns `EOF`, the bytes are
lost when the buffer is emptied at the end, and the Worker ends with status 0
having written nothing. -/
theorem kitty_full_device_exit_zero :
    main (world_with_write (WriteOutcome.failed 0) [] [104, 105]) ["kitty", "-1"] =
      some ⟨Ending.exited 0, ⟨[], [], [],
        [".kitty.4242.launch", ".kitty.4242.fd_ok", ".kitty.4242.eof_ok"]⟩⟩ := by
  have hc : checks (world_with_write (WriteOutcome.failed 0) [] [104, 105]) 1 =
      Except.ok ⟨[], [], [], [".kitty.4242.launch", ".kitty.4242.fd_ok"]⟩ := by
    rw [checks_clean _ 1 (by decide) (by decide) (fun h => absurd h.1 (by decide))
      (fun _ _ _ => rfl) rfl rfl]
    rfl
  rw [main_eq _ "kitty" "-1" 1 rfl, hc]
  rfl

/-- A standard output that is a pipe nobody reads, with a buffer that holds
the whole output: the `write` that empties the buffer at the end ends the
Worker by signal 13, with nothing written. -/
theorem kitty_broken_pipe_killed :
    main (world_with_write (WriteOutcome.killed 13) [] [104, 105]) ["kitty", "-1"] =
      some ⟨Ending.killed 13, ⟨[], [], [],
        [".kitty.4242.launch", ".kitty.4242.fd_ok", ".kitty.4242.eof_ok"]⟩⟩ := by
  have hc : checks (world_with_write (WriteOutcome.killed 13) [] [104, 105]) 1 =
      Except.ok ⟨[], [], [], [".kitty.4242.launch", ".kitty.4242.fd_ok"]⟩ := by
    rw [checks_clean _ 1 (by decide) (by decide) (fun h => absurd h.1 (by decide))
      (fun _ _ _ => rfl) rfl rfl]
    rfl
  rw [main_eq _ "kitty" "-1" 1 rfl, hc]
  rfl

end Kitty

/-! ## Properties of the Orchestrator -/

namespace CatHerder

/-- The loop of `putenv` ends within one iteration per entry. -/
theorem putenv_loop_returns (fuel i : Nat) (environ : List String)
    (h : environ.length ≤ i + fuel) :
    ∃ e, putenv_loop fuel i environ = Except.ok e := by
  induction fuel generalizing i environ with
  | zero =>
    unfold putenv_loop
    have : environ.get? i = none := List.get?_eq_none.2 (by omega)
    rw [this]
    exact ⟨_, rfl⟩
  | succ n ih =>
    unfold putenv_loop
    cases hg : environ.get? i with
    | none => exact ⟨_, rfl⟩
    | some entry =>
      simp only [Libc.putenv_ret, ne_eq, not_true_eq_false, if_false]
      apply ih
      have hmem : entry ∈ environ := List.get?_mem hg
      have hlen := Libc.putenv_length_le environ entry hmem
      omega

/-- For every inherited environment `set_env(3)` returns an environment in
which no entry is named `KITTYLITTER`, so that `getenv("KITTYLITTER")` is
null in the child. -/
theorem set_env_3_removes_litter (environ : List String) :
    ∃ e, set_env 3 environ = Except.ok e ∧
      (∀ entry ∈ e, Libc.entry_has_name "KITTYLITTER" entry = false) ∧
      Libc.getenv e "KITTYLITTER" = none := by
  obtain ⟨e0, he0⟩ := putenv_loop_returns environ.length 0 environ (by omega)
  have hall : ∀ entry ∈ e0.filter (fun entry => !Libc.entry_has_name "KITTYLITTER" entry),
      Libc.entry_has_name "KITTYLITTER" entry = false := by
    intro entry hentry
    have := (List.mem_filter.1 hentry).2
    simpa using this
  refine ⟨e0.filter (fun entry => !Libc.entry_has_name "KITTYLITTER" entry), ?_, hall,
    Libc.getenv_none_of_no_entry _ _ hall⟩
  unfold set_env
  rw [he0]
  rfl

/-- For every inherited environment `set_env(2)` returns an environment in
which `getenv("CATFOOD")` is `yummy`. -/
theorem set_env_2_sets_food (environ : List String) :
    ∃ e, set_env 2 environ = Except.ok e ∧ Libc.getenv e "CATFOOD" = some "yummy" := by
  obtain ⟨e0, he0⟩ := putenv_loop_returns environ.length 0 environ (by omega)
  refine ⟨Libc.add_to_environ e0 "CATFOOD" ("CATFOOD" ++ "=" ++ "yummy"), ?_,
    Libc.getenv_add_to_environ e0 "CATFOOD" "yummy"⟩
  unfold set_env
  rw [he0]
  rfl

/-- For every inherited environment, the environment test of the Worker at
run level 3, applied to what `set_env(3)` hands on, finds no error: it does
nothing but create the marker `env_ok`. -/
theorem set_env_3_passes_check (environ : List String) (w : Kitty.World) (e : Kitty.Effects) :
    ∃ e3, set_env 3 environ = Except.ok e3 ∧
      Kitty.check_env { w with environ := e3 } 3 e3 e =
        Kitty.touch { w with environ := e3 } "env_ok" e := by
  obtain ⟨e3, h3, _, hg⟩ := set_env_3_removes_litter environ
  refine ⟨e3, h3, ?_⟩
  have h01 : ¬ ((3 : Int) = 0 ∨ (3 : Int) = 1) := by decide
  have h42 : ¬ ((3 : Int) = 4 ∨ (3 : Int) = 2) := by decide
  have h4 : ¬ ((3 : Int) = 4 ∧ e3.length ≠ 3) := fun h => absurd h.1 (by decide)
  unfold Kitty.check_env
  simp only [if_neg h01, if_neg h42, if_true, Kitty.check_env_count, if_neg h4,
    Kitty.check_env_litter, hg, Bool.false_eq_true, if_false]

/-- The parent ends with status 0 exactly when `argc` is 3, both
pipes and the three forks succeed, and every `waitpid` succeeds with a status
whose exit-status byte is 0. -/
theorem main_status_zero_iff (os : Os) (argv : List String) :
    (main os argv).status = 0 ↔
      (argv.length = 3 ∧ os.pipe1 ≠ -1 ∧ os.pipe2 ≠ -1 ∧
       0 ≤ os.fork2 ∧ 0 ≤ os.fork3 ∧ 0 ≤ os.fork4 ∧
       (0 ≤ (os.waitpid os.fork2).ret ∧ WEXITSTATUS (os.waitpid os.fork2).status = 0) ∧
       (0 ≤ (os.waitpid os.fork3).ret ∧ WEXITSTATUS (os.waitpid os.fork3).status = 0) ∧
       (0 ≤ (os.waitpid os.fork4).ret ∧ WEXITSTATUS (os.waitpid os.fork4).status = 0)) := by
  unfold main
  by_cases ha : argv.length = 3
  · by_cases hp : os.pipe1 = -1 ∨ os.pipe2 = -1
    · simp only [ha, ne_eq, not_true_eq_false, if_false, hp, if_true]
      constructor
      · intro h; exact absurd h (by decide)
      · intro h; rcases hp with hp | hp
        · exact absurd hp h.2.1
        · exact absurd hp h.2.2.1
    · simp only [ha, ne_eq, not_true_eq_false, if_false, hp]
      have hp1 : os.pipe1 ≠ -1 := fun h => hp (Or.inl h)
      have hp2 : os.pipe2 ≠ -1 := fun h => hp (Or.inr h)
      by_cases f2 : os.fork2 < 0
      · simp [fork_child, f2, bind, Except.bind]
      by_cases f3 : os.fork3 < 0
      · simp [fork_child, f2, f3, bind, Except.bind]
      by_cases f4 : os.fork4 < 0
      · simp [fork_child, f2, f3, f4, bind, Except.bind]
      by_cases w2 : (os.waitpid os.fork2).ret < 0 ∨ WEXITSTATUS (os.waitpid os.fork2).status ≠ 0
      · simp only [fork_child, f2, f3, f4, bind, Except.bind, wait_child, w2, if_true, if_false]
        constructor
        · intro h; exact absurd h (by decide)
        · intro h; rcases w2 with w | w
          · have := h.2.2.2.2.2.2.1.1; omega
          · exact absurd h.2.2.2.2.2.2.1.2 w
      by_cases w3 : (os.waitpid os.fork3).ret < 0 ∨ WEXITSTATUS (os.waitpid os.fork3).status ≠ 0
      · simp only [fork_child, f2, f3, f4, bind, Except.bind, wait_child, w2, w3, if_true,
          if_false]
        constructor
        · intro h; exact absurd h (by decide)
        · intro h; rcases w3 with w | w
          · have := h.2.2.2.2.2.2.2.1.1; omega
          · exact absurd h.2.2.2.2.2.2.2.1.2 w
      by_cases w4 : (os.waitpid os.fork4).ret < 0 ∨ WEXITSTATUS (os.waitpid os.fork4).status ≠ 0
      · simp only [fork_child, f2, f3, f4, bind, Except.bind, wait_child, w2, w3, w4, if_true,
          if_false]
        constructor
        · intro h; exact absurd h (by decide)
        · intro h; rcases w4 with w | w
          · have := h.2.2.2.2.2.2.2.2.1; omega
          · exact absurd h.2.2.2.2.2.2.2.2.2 w
      · simp only [fork_child, f2, f3, f4, bind, Except.bind, wait_child, w2, w3, w4, if_false,
          true_iff]
        refine ⟨trivial, hp1, hp2, by omega, by omega, by omega, ?_, ?_, ?_⟩
        · constructor
          · by_contra h; exact w2 (Or.inl (by omega))
          · by_contra h; exact w2 (Or.inr h)
        · constructor
          · by_contra h; exact w3 (Or.inl (by omega))
          · by_contra h; exact w3 (Or.inr h)
        · constructor
          · by_contra h; exact w4 (Or.inl (by omega))
          · by_contra h; exact w4 (Or.inr h)
  · rw [if_pos ha]
    constructor
    · intro h
      have h1 : (1 : Nat) = 0 := h
      exact absurd h1 (by decide)
    · intro h; exact absurd h.1 ha

/-- On a tidy environment the loop of `putenv` changes nothing. -/
theorem putenv_loop_tidy (fuel i : Nat) (environ : List String) (ht : Libc.Tidy environ)
    (h : environ.length ≤ i + fuel) :
    putenv_loop fuel i environ = Except.ok environ := by
  induction fuel generalizing i with
  | zero =>
    unfold putenv_loop
    have : environ.get? i = none := List.get?_eq_none.2 (by omega)
    rw [this]
  | succ n ih =>
    unfold putenv_loop
    cases hg : environ.get? i with
    | none => rfl
    | some entry =>
      have hmem : entry ∈ environ := List.get?_mem hg
      simp only [Libc.putenv_tidy environ entry ht hmem, ne_eq, not_true_eq_false, if_false]
      exact ih (i + 1) (by omega)

/-- On a tidy environment `set_env(3)` hands on the inherited entries in
order, without those named `KITTYLITTER`. -/
theorem set_env_3_tidy (environ : List String) (ht : Libc.Tidy environ) :
    set_env 3 environ =
      Except.ok (environ.filter (fun entry => !Libc.entry_has_name "KITTYLITTER" entry)) := by
  unfold set_env
  rw [putenv_loop_tidy _ _ _ ht (by omega)]
  rfl

/-- On a tidy environment in which `PATH` and `HOME` are set, `set_env(4)`
hands on exactly `PATH` and `HOME` with their inherited values and
`CATFOOD=yummy`. -/
theorem set_env_4_tidy (environ : List String) (p h : String) (ht : Libc.Tidy environ)
    (hp : Libc.getenv environ "PATH" = some p) (hh : Libc.getenv environ "HOME" = some h) :
    set_env 4 environ =
      Except.ok ["PATH=" ++ p, "HOME=" ++ h, "CATFOOD=yummy"] := by
  unfold set_env
  rw [putenv_loop_tidy _ _ _ ht (by omega)]
  show set_env_4 environ = _
  unfold set_env_4
  rw [hp, hh]
  have e1 : Libc.entry_has_name "HOME" ("PATH=" ++ p) = false := by
    simp [Libc.entry_has_name, List.isPrefixOf]
  have e2 : Libc.entry_has_name "CATFOOD" ("PATH=" ++ p) = false := by
    simp [Libc.entry_has_name, List.isPrefixOf]
  have e3 : Libc.entry_has_name "CATFOOD" ("HOME=" ++ h) = false := by
    simp [Libc.entry_has_name, List.isPrefixOf]
  simp [Libc.clearenv, setenv_or_exit, Libc.setenv, bind, Except.bind, Libc.add_to_environ,
    e1, e2, e3]


/-- A tidy environment: four entries `name=value` with four names. -/
theorem tidy_sample :
    Libc.Tidy ["PATH=/bin", "HOME=/root", "KITTYLITTER=sand", "CATFOOD=stale"] := by
  unfold Libc.Tidy
  decide

/-- The three environments `set_env` builds from a tidy environment with
`PATH`, `HOME`, `KITTYLITTER` and a stale `CATFOOD`. -/
theorem set_env_sample :
    set_env 2 ["PATH=/bin", "HOME=/root", "KITTYLITTER=sand", "CATFOOD=stale"] =
      Except.ok ["PATH=/bin", "HOME=/root", "KITTYLITTER=sand", "CATFOOD=yummy"] ∧
    set_env 3 ["PATH=/bin", "HOME=/root", "KITTYLITTER=sand", "CATFOOD=stale"] =
      Except.ok ["PATH=/bin", "HOME=/root", "CATFOOD=stale"] ∧
    set_env 4 ["PATH=/bin", "HOME=/root", "KITTYLITTER=sand", "CATFOOD=stale"] =
      Except.ok ["PATH=/bin", "HOME=/root", "CATFOOD=yummy"] := by
  refine ⟨rfl, ?_, ?_⟩
  · rw [set_env_3_tidy _ tidy_sample]
    rfl
  · exact set_env_4_tidy _ "/bin" "/root" tidy_sample rfl rfl

/-- The whole run on a tidy inherited environment in which `PATH` and `HOME`
are set, in surroundings where nothing goes wrong: the three children build
their environments, the three Workers pass their checks at levels 2, 3 and 4,
the last one writes exactly the bytes the first one read, and the parent,
given the wait statuses of three normal exits, ends with status 0. -/
theorem pipeline_end_to_end (environ : List String) (p h : String)
    (input : List Kitty.Byte) (ht : Libc.Tidy environ)
    (hp : Libc.getenv environ "PATH" = some p) (hh : Libc.getenv environ "HOME" = some h) :
    ∃ e2 e3 e4 r2 r3 r4,
      set_env 2 environ = Except.ok e2 ∧
      set_env 3 environ = Except.ok e3 ∧
      set_env 4 environ = Except.ok e4 ∧
      Kitty.main (Kitty.calm_world e2 input) ["kitty", "-2"] = some r2 ∧
      Kitty.main (Kitty.fed_by (Kitty.calm_world e3 []) r2) ["kitty", "-3"] = some r3 ∧
      Kitty.main (Kitty.fed_by (Kitty.calm_world e4 []) r3) ["kitty", "-4"] = some r4 ∧
      r2.ending = Kitty.Ending.exited 0 ∧ r3.ending = Kitty.Ending.exited 0 ∧
      r4.ending = Kitty.Ending.exited 0 ∧
      r4.eff.out = input ∧
      (main (os_with_statuses (raw_status r2.ending) (raw_status r3.ending)
        (raw_status r4.ending)) ["cat-herder", "in.txt", "out.txt"]).status = 0 := by
  obtain ⟨e2, h2, hfood⟩ := set_env_2_sets_food environ
  obtain ⟨e3, h3, _, hlitter⟩ := set_env_3_removes_litter environ
  have h4 := set_env_4_tidy environ p h ht hp hh
  have hfood4 : Libc.getenv ["PATH=" ++ p, "HOME=" ++ h, "CATFOOD=yummy"] "CATFOOD" =
      some "yummy" := by
    have e1 : Libc.entry_has_name "CATFOOD" ("PATH=" ++ p) = false := by
      simp [Libc.entry_has_name, List.isPrefixOf]
    have e2 : Libc.entry_has_name "CATFOOD" ("HOME=" ++ h) = false := by
      simp [Libc.entry_has_name, List.isPrefixOf]
    unfold Libc.getenv
    rw [e1]
    unfold Libc.getenv
    rw [e2]
    rfl
  obtain ⟨r2, m2, i2, o2, _⟩ := Kitty.main_env_level (Kitty.calm_world e2 input) "kitty" "-2" 2
    rfl (by decide) (by decide) (fun hf => absurd hf.1 (by decide))
    (fun _ _ _ => rfl) (fun _ => rfl) (fun _ => rfl)
  have s2 : r2.ending = Kitty.Ending.exited 0 :=
    i2.2 ⟨fun h4 => absurd h4 (by decide), fun _ => hfood, fun h3 => absurd h3 (by decide)⟩
  obtain ⟨r3, m3, i3, o3, _⟩ := Kitty.main_env_level
    (Kitty.fed_by (Kitty.calm_world e3 []) r2) "kitty" "-3" 3
    rfl (by decide) (by decide) (fun hf => Bool.false_ne_true hf.2)
    (fun _ _ _ => rfl) (fun _ => rfl) (fun _ => rfl)
  have s3 : r3.ending = Kitty.Ending.exited 0 :=
    i3.2 ⟨fun h4 => absurd h4 (by decide), fun h42 => by
      rcases h42 with h42 | h42 <;> exact absurd h42 (by decide), fun _ => hlitter⟩
  obtain ⟨r4, m4, i4, o4, _⟩ := Kitty.main_env_level
    (Kitty.fed_by (Kitty.calm_world ["PATH=" ++ p, "HOME=" ++ h, "CATFOOD=yummy"] []) r3)
    "kitty" "-4" 4
    rfl (by decide) (by decide) (fun hf => absurd hf.1 (by decide))
    (fun _ _ _ => rfl) (fun _ => rfl) (fun _ => rfl)
  have s4 : r4.ending = Kitty.Ending.exited 0 :=
    i4.2 ⟨fun _ => rfl, fun _ => hfood4, fun h3 => absurd h3 (by decide)⟩
  refine ⟨e2, e3, _, r2, r3, r4, h2, h3, h4, m2, m3, m4, s2, s3, s4, ?_, ?_⟩
  · have a4 : r4.eff.out = r3.eff.out := o4 s4
    have a3 : r3.eff.out = r2.eff.out := o3 s3
    have a2 : r2.eff.out = input := o2 s2
    rw [a4, a3, a2]
  · rw [s2, s3, s4]
    decide

/-- The scenario of the input `hello` and a newline: on the tidy sample
environment the last Worker writes exactly these six bytes and the parent
ends with status 0. -/
theorem pipeline_hello :
    ∃ e2 e3 e4 r2 r3 r4,
      set_env 2 ["PATH=/bin", "HOME=/root", "KITTYLITTER=sand", "CATFOOD=stale"] =
        Except.ok e2 ∧
      set_env 3 ["PATH=/bin", "HOME=/root", "KITTYLITTER=sand", "CATFOOD=stale"] =
        Except.ok e3 ∧
      set_env 4 ["PATH=/bin", "HOME=/root", "KITTYLITTER=sand", "CATFOOD=stale"] =
        Except.ok e4 ∧
      Kitty.main (Kitty.calm_world e2 [104, 101, 108, 108, 111, 10]) ["kitty", "-2"] =
        some r2 ∧
      Kitty.main (Kitty.fed_by (Kitty.calm_world e3 []) r2) ["kitty", "-3"] = some r3 ∧
      Kitty.main (Kitty.fed_by (Kitty.calm_world e4 []) r3) ["kitty", "-4"] = some r4 ∧
      r2.ending = Kitty.Ending.exited 0 ∧ r3.ending = Kitty.Ending.exited 0 ∧
      r4.ending = Kitty.Ending.exited 0 ∧
      r4.eff.out = [104, 101, 108, 108, 111, 10] ∧
      (main (os_with_statuses (raw_status r2.ending) (raw_status r3.ending)
        (raw_status r4.ending)) ["cat-herder", "in.txt", "out.txt"]).status = 0 :=
  pipeline_end_to_end _ "/bin" "/root" _ tidy_sample rfl rfl

/-- C1: the second child is killed by signal 9, so its raw wait status is 9:
it did not exit normally, yet `WEXITSTATUS` of 9 is 0 and the parent, having
waited for the three children, ends with status 0. -/
theorem herder_signalled_child_exit_zero :
    WIFEXITED 9 = false ∧ WEXITSTATUS 9 = 0 ∧
    main (os_with_statuses 0 9 0) ["cat-herder", "in.txt", "out.txt"] =
      ⟨0, ⟨[], [100, 101, 102]⟩⟩ := by
  refine ⟨by decide, by decide, by decide⟩

/-- C2: the first child exits with status 1 (raw wait status 256): the parent
calls `waitpid` on child 100 only and ends with status 1; children 101 and 102
are never waited for. -/
theorem herder_first_failure_skips_waits :
    WEXITSTATUS 256 = 1 ∧
    main (os_with_statuses 256 0 0) ["cat-herder", "in.txt", "out.txt"] =
      ⟨1, ⟨["Error waiting for child with PID 100: (error text of errno)\n"], [100]⟩⟩ := by
  refine ⟨by decide, by decide⟩

/-- C8: the parent environment has no `PATH`: `getenv("PATH")` is null and
`set_env(4)` passes it to `setenv` as the value, so no environment is built. -/
theorem set_env_4_without_path :
    Libc.getenv ["HOME=/root", "USER=me"] "PATH" = none ∧
    set_env 4 ["HOME=/root", "USER=me"] = Except.error (Stop.null_value "PATH") := by
  exact ⟨rfl, rfl⟩

/-- C9: the parent environment holds `USER` twice: the loop of `putenv` stores
the second entry over the first, so `set_env(3)` hands on `USER=bob` where
the parent's `getenv("USER")` is `alice`. -/
theorem set_env_3_changes_repeated_variable :
    set_env 3 ["USER=alice", "USER=bob"] = Except.ok ["USER=bob", "USER=bob"] ∧
    Libc.getenv ["USER=alice", "USER=bob"] "USER" = some "alice" ∧
    Libc.getenv ["USER=bob", "USER=bob"] "USER" = some "bob" := by
  exact ⟨rfl, rfl, rfl⟩

end CatHerder
